import Mathlib

/-!
# OneVoice server — shallow embedding

A shallow embedding of the OneVoice server core (`server/src/index.js` and
`server/src/services/{translator,tts,stt}.js`): the record store is explicit
state, external providers (Lingo translation, Sarvam STT/TTS, Cloudinary
storage, language detection) are oracles supplied in an `Env`, and every
handler returns its final state together with the emitted realtime events,
the provider calls it made, its voice-stage log, and an `Except`-style result
mirroring the JavaScript throw/catch flow.
-/

namespace OneVoice

/-- Membership role (Prisma enum `MemberRole`). -/
inductive Role where
  | ADMIN
  | MEMBER
deriving DecidableEq, Repr

/-- Conversation kind (Prisma enum `ConversationType`). -/
inductive ConvType where
  | DIRECT
  | GROUP
deriving DecidableEq, Repr

/-- Message kind (`kind` column). -/
inductive MsgKind where
  | TEXT
  | VOICE
deriving DecidableEq, Repr

/-- A user row; only the fields the pipeline reads. -/
structure User where
  id : String
  preferredLanguage : String
deriving DecidableEq, Repr

/-- A `ConversationMember` row: (conversation, user, role). -/
structure ConversationMember where
  conversationId : String
  userId : String
  role : Role
deriving DecidableEq, Repr

/-- A `Conversation` row; only the fields the handlers read. -/
structure Conversation where
  id : String
  type : ConvType
deriving DecidableEq, Repr

/-- A `Message` row as created by the text and voice pipelines. -/
structure Message where
  id : Nat
  conversationId : String
  senderId : String
  kind : MsgKind
  originalText : String
  translatedText : String
  sourceLanguage : String
  targetLanguage : String
  originalAudioUrl : Option String := none
  translatedAudioUrl : Option String := none
deriving DecidableEq, Repr

/-- The record store: the Prisma tables the handlers touch, plus a counter
generating fresh ids. -/
structure DB where
  users : List User
  conversations : List Conversation
  members : List ConversationMember
  messages : List Message
  nextId : Nat
deriving DecidableEq, Repr

/-- One invocation of an external provider, recorded so that theorems can
state that a provider was or was not reached. -/
inductive ProviderCall where
  | lingo (text : String) (sourceLocale : Option String) (targetLocale : String)
  | sarvamTts (text : String) (languageCode : String)
  | sarvamStt (audio : String) (hintCode : Option String)
  | cloudinary (audio : String) (keyHint : String)
deriving DecidableEq, Repr

/-- The raw Sarvam STT response body fields the code reads:
`data.transcript` (absent coerced to `""`) and `data.language_code`. -/
structure SttRaw where
  transcript : String
  languageCode : Option String
deriving DecidableEq, Repr

/-- What `speechToText` returns to the pipeline. -/
structure SttResult where
  text : String
  language : String
deriving DecidableEq, Repr

/-- The external world: provider configuration and oracle responses.
`detect` stands for `services/language.js`, which is not among the sources
(only its import in `index.js` is); the spec says `detect(text, fallback)`
is pure, total and never raises, which a plain function models exactly.
`cloudinaryUpload` is the uncertain tail of `services/storage.js`'s
`uploadAudioBase64` after its falsy-input and configuration checks: the
data-URI normalization (which may throw `Invalid base64 audio data URI`)
together with the `cloudinary.uploader.upload` network call — both run
inside the caller's try, so one `Except` boundary covers them; on success
the code returns `uploaded.secure_url`. `dbCreate` is the persistence
layer's verdict on a `message.create`. `now`/`rand` feed `makeTraceId`. -/
structure Env where
  lingoConfigured : Bool
  sarvamConfigured : Bool
  cloudinaryConfigured : Bool
  lingoLocalizeText : String → Option String → String → Except String String
  sarvamTtsFetch : String → String → Except String (Option String)
  sarvamSttFetch : String → Option String → Except String SttRaw
  cloudinaryUpload : String → String → Except String String
  detect : String → String → String
  dbCreate : Message → Option String
  now : String
  rand : String

/-! ## Small string helpers

The JavaScript code tests `!s?.trim()` (blank string), `s.toLowerCase()`,
`s.includes("-")` and `s.split("-")[0]`; the helpers below embed those
operations over `String.data` so that every theorem evaluates by `decide`.
Only ASCII language codes and whitespace occur in the embedded code paths. -/

/-- Whitespace as far as the embedded checks need (`trim` strips these). -/
def isWsChar (c : Char) : Bool :=
  c = ' ' ∨ c = '\t' ∨ c = '\n' ∨ c = '\r'

/-- `isBlank s` models JS `!s?.trim()`: true iff the trimmed string is empty. -/
def isBlank (s : String) : Bool :=
  s.data.all isWsChar

/-- ASCII lower-casing of one character (models `toLowerCase` on the
language codes appearing here). -/
def lcChar (c : Char) : Char :=
  if 'A' ≤ c ∧ c ≤ 'Z' then Char.ofNat (c.toNat + 32) else c

/-- ASCII lower-casing (models `s.toLowerCase()`). -/
def lcStr (s : String) : String :=
  String.mk (s.data.map lcChar)

/-- Models `s.includes("-")`. -/
def hasDash (s : String) : Bool :=
  s.data.contains '-'

/-- Characters before the first dash. -/
def takeUntilDash : List Char → List Char
  | [] => []
  | c :: rest => if c = '-' then [] else c :: takeUntilDash rest

/-- Models `String(code).split("-")[0]`. -/
def bcpHead (s : String) : String :=
  String.mk (takeUntilDash s.data)

/-! ## services/translator.js -/

/-- `translateText(text, targetLanguage, sourceLanguage)`: blank input short
circuits to `""`; equal source and target short circuits to the input
verbatim; otherwise the Lingo engine must be configured and is invoked. -/
def translateText (env : Env) (text targetLanguage sourceLanguage : String) :
    Except String String × List ProviderCall :=
  if isBlank text then (.ok "", [])
  else if sourceLanguage = targetLanguage then (.ok text, [])
  else if env.lingoConfigured then
    let src : Option String := if sourceLanguage = "auto" then none else some sourceLanguage
    (env.lingoLocalizeText text src targetLanguage, [.lingo text src targetLanguage])
  else (.error "LINGO_API_KEY is not configured", [])

/-! ## services/tts.js -/

/-- The fixed lookup table in `toBcp47Language` (shared verbatim between
`tts.js` and `stt.js`). -/
def bcp47Map (l : String) : Option String :=
  if l = "en" then some "en-IN"
  else if l = "hi" then some "hi-IN"
  else if l = "ta" then some "ta-IN"
  else if l = "te" then some "te-IN"
  else if l = "ml" then some "ml-IN"
  else if l = "kn" then some "kn-IN"
  else if l = "bn" then some "bn-IN"
  else if l = "gu" then some "gu-IN"
  else if l = "mr" then some "mr-IN"
  else none

/-- `toBcp47Language` of `tts.js`: codes already containing a dash pass
through unchanged; otherwise the lower-cased code is looked up. -/
def ttsToBcp47 (language : String) : Option String :=
  let lower := lcStr language
  if hasDash lower then some language
  else bcp47Map lower

/-- `textToSpeechBase64(text, language)`: requires the Sarvam key, returns
`null` (no audio, not an error) on blank text, rejects unmapped languages,
otherwise calls the Sarvam TTS endpoint. -/
def textToSpeechBase64 (env : Env) (text language : String) :
    Except String (Option String) × List ProviderCall :=
  if env.sarvamConfigured then
    if isBlank text then (.ok none, [])
    else
      match ttsToBcp47 language with
      | none => (.error ("Unsupported TTS language: " ++ language), [])
      | some code => (env.sarvamTtsFetch text code, [.sarvamTts text code])
  else (.error "SARVAM_API_KEY is not configured", [])

/-! ## services/stt.js -/

/-- `toBcp47Language` of `stt.js`: `null`/`"auto"` yield no hint code. -/
def sttToBcp47 (language : String) : Option String :=
  if language = "" ∨ language = "auto" then none
  else
    let lower := lcStr language
    if hasDash lower then some language
    else bcp47Map lower

/-- `fromBcp47Language`: falsy code gives `null`, else the lower-cased part
before the first dash. -/
def fromBcp47 (code : Option String) : Option String :=
  match code with
  | none => none
  | some c => if c = "" then none else some (lcStr (bcpHead c))

/-- The `language` field assembled by `speechToText`:
`fromBcp47Language(data.language_code) || (hint === "auto" ? "en" : hint)`
(JS `||` also replaces an empty-string result). -/
def sttLanguage (languageCode : Option String) (hintLanguage : String) : String :=
  let fb := if hintLanguage = "auto" then "en" else hintLanguage
  match fromBcp47 languageCode with
  | none => fb
  | some l => if l = "" then fb else l

/-- `speechToText(audioBase64, hintLanguage)`: requires the Sarvam key and a
non-blank payload, then calls the Sarvam STT endpoint and assembles
transcript and detected language. -/
def speechToText (env : Env) (audioBase64 hintLanguage : String) :
    Except String SttResult × List ProviderCall :=
  if env.sarvamConfigured then
    if isBlank audioBase64 then (.error "audioBase64 is required for STT", [])
    else
      let hintCode := sttToBcp47 hintLanguage
      match env.sarvamSttFetch audioBase64 hintCode with
      | .error e => (.error e, [.sarvamStt audioBase64 hintCode])
      | .ok raw =>
          (.ok ⟨raw.transcript, sttLanguage raw.languageCode hintLanguage⟩,
           [.sarvamStt audioBase64 hintCode])
  else (.error "SARVAM_API_KEY is not configured", [])

/-! ## services/storage.js -/

/-- `uploadAudioBase64(base64Input, publicIdPrefix)`: falsy input (the
per-recipient call site passes `null` when TTS produced no audio, hence
`Option String`) returns `null` with no Cloudinary call and no error; an
unconfigured Cloudinary throws; otherwise the normalization plus upload
(the `cloudinaryUpload` oracle) either throws or yields the uploaded URL. -/
def uploadAudioBase64 (env : Env) (audio : Option String) (keyHint : String) :
    Except String (Option String) × List ProviderCall :=
  match audio with
  | none => (.ok none, [])
  | some a =>
    if a = "" then (.ok none, [])
    else if env.cloudinaryConfigured then
      match env.cloudinaryUpload a keyHint with
      | .error e => (.error e, [.cloudinary a keyHint])
      | .ok url => (.ok (some url), [.cloudinary a keyHint])
    else (.error "Cloudinary is not configured", [])

/-! ## Membership helpers (index.js) -/

/-- `isConversationMember`: a `ConversationMember` row exists for the pair. -/
def isConversationMember (db : DB) (conversationId userId : String) : Bool :=
  db.members.any fun m => m.conversationId = conversationId ∧ m.userId = userId

/-- First user row with the given id (Prisma FK target of a membership). -/
def findUser (db : DB) (userId : String) : Option User :=
  db.users.find? fun u => u.id = userId

/-- `getConversationMembers`: the conversation's membership rows joined with
their current user rows (`include: { user: true }`), in stored order. -/
def getConversationMembers (db : DB) (conversationId : String) : List User :=
  (db.members.filter fun m => m.conversationId = conversationId).filterMap
    fun m => findUser db m.userId

/-- `isGroupAdmin`: the conversation exists, is a GROUP, and the user's
membership row carries role ADMIN. -/
def isGroupAdmin (db : DB) (conversationId userId : String) : Bool :=
  match db.conversations.find? fun c => c.id = conversationId with
  | none => false
  | some c =>
    if c.type = ConvType.GROUP then
      match db.members.find? fun m =>
          m.conversationId = conversationId ∧ m.userId = userId with
      | some m => m.role = Role.ADMIN
      | none => false
    else false

/-- Number of ADMIN membership rows of a conversation (the
`prisma.conversationMember.count` in the member-removal handler). -/
def adminCount (db : DB) (conversationId : String) : Nat :=
  (db.members.filter fun m =>
    m.conversationId = conversationId ∧ m.role = Role.ADMIN).length

/-- At most one membership row per (conversation, user) pair — the Prisma
schema's `@@unique([conversationId, userId])` compound key. -/
def MembersWellformed (db : DB) : Prop :=
  (db.members.map fun m => (m.conversationId, m.userId)).Nodup

/-! ## Member removal (DELETE /conversations/:conversationId/members/:userId) -/

/-- The member-removal handler: requester must be a member and a group
admin; the target membership must exist; removing an ADMIN is refused when
the conversation has at most one ADMIN; otherwise the row is deleted. -/
def removeMember (db : DB) (conversationId requesterId userId : String) :
    DB × Except String Unit :=
  if isConversationMember db conversationId requesterId then
    if isGroupAdmin db conversationId requesterId then
      match db.members.find? fun m =>
          m.conversationId = conversationId ∧ m.userId = userId with
      | none => (db, .error "Member not found")
      | some targetMember =>
        if targetMember.role = Role.ADMIN ∧ adminCount db conversationId ≤ 1 then
          (db, .error "Cannot remove last admin")
        else
          ({ db with members := db.members.filter fun m =>
              ¬(m.conversationId = conversationId ∧ m.userId = userId) },
           .ok ())
    else (db, .error "Admin permission required")
  else (db, .error "Not a member of this conversation")

/-! ## Direct conversation creation (POST /conversations/direct) -/

/-- The `findFirst` predicate: a DIRECT conversation having a membership of
the requester, a membership of the contact, and every membership among the
two. -/
def directMatch (db : DB) (a b : String) (c : Conversation) : Bool :=
  let ms := db.members.filter fun m => m.conversationId = c.id
  c.type = ConvType.DIRECT
    ∧ (ms.any fun m => m.userId = a)
    ∧ (ms.any fun m => m.userId = b)
    ∧ (ms.all fun m => m.userId = a ∨ m.userId = b)

/-- The direct-conversation handler: rejects a missing or self contact id,
returns the first existing DIRECT conversation of the pair, otherwise
creates one with two MEMBER rows. The result carries the conversation id. -/
def createDirect (db : DB) (requesterId contactUserId : String) :
    DB × Except String String :=
  if contactUserId = "" then (db, .error "contactUserId is required")
  else if contactUserId = requesterId then (db, .error "Invalid contactUserId")
  else
    match db.conversations.find? (directMatch db requesterId contactUserId) with
    | some c => (db, .ok c.id)
    | none =>
      let cid := "conv_" ++ toString db.nextId
      (({ db with
          conversations := db.conversations ++ [⟨cid, ConvType.DIRECT⟩],
          members := db.members ++
            [⟨cid, requesterId, Role.MEMBER⟩, ⟨cid, contactUserId, Role.MEMBER⟩],
          nextId := db.nextId + 1 }),
       .ok cid)

/-- PATCH /users/me restricted to the field the pipeline reads: the
preferred language is updated only when the submitted value is truthy. -/
def updateUserLanguage (db : DB) (userId newLang : String) : DB :=
  if newLang = "" then db
  else
    { db with users := db.users.map fun u =>
        if u.id = userId then { u with preferredLanguage := newLang } else u }

/-! ## Realtime events -/

/-- One `io.to(room).emit(event, payload)` of the pipelines; voice payloads
additionally carry the audio fields. (`createdAt` is wall-clock time, not
modelled.) -/
structure EmitEvent where
  event : String
  room : String
  messageId : Nat
  conversationId : String
  senderId : String
  original : String
  translated : String
  sourceLanguage : String
  targetLanguage : String
  kind : String
  audioBase64 : Option String := none
  translatedAudioUrl : Option String := none
  originalAudioUrl : Option String := none
deriving DecidableEq, Repr

/-- Outcome of one pipeline invocation: final store, emitted events,
provider calls, `logVoice` stages, and the throw/return result. -/
structure RunOut where
  db : DB
  emits : List EmitEvent
  calls : List ProviderCall
  log : List String
  result : Except String Unit
deriving Repr

/-! ## Text pipeline (socket `sendMessage` handler) -/

/-- The per-recipient loop of the `sendMessage` handler: translate, persist
one TEXT row, emit one `receiveMessage` event; the first failure aborts the
whole send (the throw is caught at handler level). -/
def textLoop (env : Env) (conversationId senderId text sourceLanguage : String) :
    List User → DB → DB × List EmitEvent × List ProviderCall × Except String Unit
  | [], db => (db, [], [], .ok ())
  | recipient :: rest, db =>
    let tr := translateText env text recipient.preferredLanguage sourceLanguage
    match tr.1 with
    | .error e => (db, [], tr.2, .error e)
    | .ok translatedText =>
      let msg : Message :=
        { id := db.nextId, conversationId, senderId, kind := MsgKind.TEXT,
          originalText := text, translatedText, sourceLanguage,
          targetLanguage := recipient.preferredLanguage }
      let db1 : DB :=
        { db with messages := db.messages ++ [msg], nextId := db.nextId + 1 }
      let ev : EmitEvent :=
        { event := "receiveMessage", room := conversationId,
          messageId := msg.id, conversationId, senderId,
          original := text, translated := translatedText, sourceLanguage,
          targetLanguage := recipient.preferredLanguage, kind := "text" }
      let tail' := textLoop env conversationId senderId text sourceLanguage rest db1
      (tail'.1, ev :: tail'.2.1, tr.2 ++ tail'.2.2.1, tail'.2.2.2)

/-- The socket `sendMessage` handler: validate the text, check membership,
resolve members, detect the source language with the sender's preferred
language (or `"en"`) as fallback, then run the per-recipient loop. -/
def sendMessage (env : Env) (db : DB) (conversationId senderId text : String) :
    RunOut :=
  if isBlank text then ⟨db, [], [], [], .error "text is required"⟩
  else if isConversationMember db conversationId senderId then
    match (getConversationMembers db conversationId).find? fun m =>
        m.id = senderId with
    | none => ⟨db, [], [], [], .error "Sender not found"⟩
    | some sender =>
      ⟨(textLoop env conversationId senderId text
          (env.detect text
            (if sender.preferredLanguage = "" then "en"
             else sender.preferredLanguage))
          (getConversationMembers db conversationId) db).1,
       (textLoop env conversationId senderId text
          (env.detect text
            (if sender.preferredLanguage = "" then "en"
             else sender.preferredLanguage))
          (getConversationMembers db conversationId) db).2.1,
       (textLoop env conversationId senderId text
          (env.detect text
            (if sender.preferredLanguage = "" then "en"
             else sender.preferredLanguage))
          (getConversationMembers db conversationId) db).2.2.1,
       [],
       (textLoop env conversationId senderId text
          (env.detect text
            (if sender.preferredLanguage = "" then "en"
             else sender.preferredLanguage))
          (getConversationMembers db conversationId) db).2.2.2⟩
  else ⟨db, [], [], [], .error "User is not a member of this conversation"⟩

/-! ## Voice pipeline (processAndEmitVoiceMessage and its routes) -/

/-- The per-recipient loop of `processAndEmitVoiceMessage`: translate the
transcript, synthesize, upload the synthesized audio, persist one VOICE row,
emit one `receiveVoiceMessage` event; each stage failure aborts the whole
send tagged with the failing dependency. -/
def voiceLoop (env : Env)
    (conversationId senderId sourceText sourceLanguage : String)
    (originalAudioUrl : Option String) :
    List User → DB →
      DB × List EmitEvent × List ProviderCall × List String × Except String Unit
  | [], db => (db, [], [], [], .ok ())
  | recipient :: rest, db =>
    let tr := translateText env sourceText recipient.preferredLanguage sourceLanguage
    match tr.1 with
    | .error e =>
      (db, [], tr.2, ["translate_start"], .error ("lingo-translate: " ++ e))
    | .ok translatedText =>
      let ts := textToSpeechBase64 env translatedText recipient.preferredLanguage
      match ts.1 with
      | .error e =>
        (db, [], tr.2 ++ ts.2, ["translate_start", "translate_done", "tts_start"],
         .error ("sarvam-tts: " ++ e))
      | .ok ttsAudioBase64 =>
        let up := uploadAudioBase64 env ttsAudioBase64
          ("translated_" ++ conversationId ++ "_" ++ recipient.id)
        match up.1 with
        | .error e =>
          (db, [], tr.2 ++ ts.2 ++ up.2,
           ["translate_start", "translate_done", "tts_start", "tts_done",
            "cloudinary_translated_start"],
           .error ("cloudinary-translated: " ++ e))
        | .ok translatedAudioUrl =>
          let msg : Message :=
            { id := db.nextId, conversationId, senderId, kind := MsgKind.VOICE,
              originalText := sourceText, translatedText, sourceLanguage,
              targetLanguage := recipient.preferredLanguage,
              originalAudioUrl := originalAudioUrl,
              translatedAudioUrl := translatedAudioUrl }
          match env.dbCreate msg with
          | some e =>
            (db, [], tr.2 ++ ts.2 ++ up.2,
             ["translate_start", "translate_done", "tts_start", "tts_done",
              "cloudinary_translated_start", "cloudinary_translated_done"],
             .error ("db-save: " ++ e))
          | none =>
            let db1 : DB :=
              { db with messages := db.messages ++ [msg], nextId := db.nextId + 1 }
            let ev : EmitEvent :=
              { event := "receiveVoiceMessage", room := conversationId,
                messageId := msg.id, conversationId, senderId,
                original := sourceText, translated := translatedText,
                sourceLanguage, targetLanguage := recipient.preferredLanguage,
                kind := "voice", audioBase64 := ttsAudioBase64,
                translatedAudioUrl := translatedAudioUrl,
                originalAudioUrl := originalAudioUrl }
            let tail' := voiceLoop env conversationId senderId sourceText
              sourceLanguage originalAudioUrl rest db1
            (tail'.1, ev :: tail'.2.1, tr.2 ++ ts.2 ++ up.2 ++ tail'.2.2.1,
             ["translate_start", "translate_done", "tts_start", "tts_done",
              "cloudinary_translated_start", "cloudinary_translated_done",
              "db_save_done", "socket_emit_voice"] ++ tail'.2.2.2.1,
             tail'.2.2.2.2)

/-- `processAndEmitVoiceMessage(conversationId, senderId, audioBase64)`:
members are resolved first, then the sender is located among them, the
original audio is uploaded (failures tagged `cloudinary-original`), the
audio is transcribed (failures tagged `sarvam-stt`), the source language is
the provider's detected language or, when falsy, a heuristic re-detection,
and finally the per-recipient loop runs. -/
def processAndEmitVoiceMessage (env : Env)
    (db : DB) (conversationId senderId audioBase64 : String) : RunOut :=
  match (getConversationMembers db conversationId).find? fun m =>
      m.id = senderId with
  | none => ⟨db, [], [], ["members_loaded"], .error "Sender not found"⟩
  | some sender =>
    match (uploadAudioBase64 env (some audioBase64)
        ("original_" ++ conversationId)).1 with
    | .error e =>
      ⟨db, [],
       (uploadAudioBase64 env (some audioBase64)
         ("original_" ++ conversationId)).2,
       ["members_loaded", "cloudinary_original_start"],
       .error ("cloudinary-original: " ++ e)⟩
    | .ok originalAudioUrl =>
      match (speechToText env audioBase64
          (if sender.preferredLanguage = "" then "auto"
           else sender.preferredLanguage)).1 with
      | .error e =>
        ⟨db, [],
         (uploadAudioBase64 env (some audioBase64)
           ("original_" ++ conversationId)).2 ++
         (speechToText env audioBase64
           (if sender.preferredLanguage = "" then "auto"
            else sender.preferredLanguage)).2,
         ["members_loaded", "cloudinary_original_start",
          "cloudinary_original_done", "stt_start"],
         .error ("sarvam-stt: " ++ e)⟩
      | .ok stt =>
        ⟨(voiceLoop env conversationId senderId stt.text
            (if stt.language = "" then env.detect stt.text sender.preferredLanguage
             else stt.language)
            originalAudioUrl (getConversationMembers db conversationId) db).1,
         (voiceLoop env conversationId senderId stt.text
            (if stt.language = "" then env.detect stt.text sender.preferredLanguage
             else stt.language)
            originalAudioUrl (getConversationMembers db conversationId) db).2.1,
         (uploadAudioBase64 env (some audioBase64)
           ("original_" ++ conversationId)).2 ++
         (speechToText env audioBase64
           (if sender.preferredLanguage = "" then "auto"
            else sender.preferredLanguage)).2 ++
         (voiceLoop env conversationId senderId stt.text
            (if stt.language = "" then env.detect stt.text sender.preferredLanguage
             else stt.language)
            originalAudioUrl (getConversationMembers db conversationId) db).2.2.1,
         ["members_loaded", "cloudinary_original_start",
          "cloudinary_original_done", "stt_start", "stt_done",
          "source_ready"] ++
         (voiceLoop env conversationId senderId stt.text
            (if stt.language = "" then env.detect stt.text sender.preferredLanguage
             else stt.language)
            originalAudioUrl (getConversationMembers db conversationId) db).2.2.2.1,
         (voiceLoop env conversationId senderId stt.text
            (if stt.language = "" then env.detect stt.text sender.preferredLanguage
             else stt.language)
            originalAudioUrl (getConversationMembers db conversationId) db).2.2.2.2⟩

/-- `makeTraceId`: `"v_" + now36 + "_" + rand36` — never empty. -/
def makeTraceId (now rand : String) : String :=
  "v_" ++ now ++ "_" ++ rand

/-- Outcome of a voice entry point: the pipeline outcome plus the trace id
returned to the caller on both success and failure. -/
structure RouteOut where
  db : DB
  emits : List EmitEvent
  calls : List ProviderCall
  log : List String
  traceId : String
  result : Except String Unit
deriving Repr

/-- POST /conversations/:conversationId/voice: make a trace id, validate the
payload, check membership (`assertMember`), then run the pipeline; any
throw is answered as `{error, traceId}`. -/
def voiceHttpRoute (env : Env) (db : DB)
    (conversationId userId audioBase64 : String) : RouteOut :=
  let traceId := makeTraceId env.now env.rand
  if isBlank audioBase64 then
    ⟨db, [], [], ["http_incoming"], traceId, .error "audioBase64 is required"⟩
  else if isConversationMember db conversationId userId then
    let r := processAndEmitVoiceMessage env db conversationId userId audioBase64
    ⟨r.db, r.emits, r.calls, "http_incoming" :: r.log, traceId, r.result⟩
  else
    ⟨db, [], [], ["http_incoming"], traceId,
     .error "User is not a member of this conversation"⟩

/-- Socket `sendVoiceMessage` handler: make a trace id, check membership,
run the pipeline (the payload is not validated here); any throw is
acknowledged as `{ok: false, error, traceId}`. -/
def sendVoiceSocket (env : Env) (db : DB)
    (conversationId senderId audioBase64 : String) : RouteOut :=
  let traceId := makeTraceId env.now env.rand
  if isConversationMember db conversationId senderId then
    let r := processAndEmitVoiceMessage env db conversationId senderId audioBase64
    ⟨r.db, r.emits, r.calls, "socket_incoming" :: r.log, traceId, r.result⟩
  else
    ⟨db, [], [], ["socket_incoming"], traceId,
     .error "User is not a member of this conversation"⟩

/-! ## Concrete fixtures

Small closed environments and stores used by witnesses and
counterexamples. -/

/-- A fully configured environment in which every provider succeeds. -/
def envOk : Env where
  lingoConfigured := true
  sarvamConfigured := true
  cloudinaryConfigured := true
  lingoLocalizeText := fun t _ tgt => .ok ("(" ++ tgt ++ ")" ++ t)
  sarvamTtsFetch := fun _ _ => .ok (some "AUDIO64")
  sarvamSttFetch := fun _ _ => .ok ⟨"hello", some "hi-IN"⟩
  cloudinaryUpload := fun _ k => .ok ("url_" ++ k)
  detect := fun _ fb => fb
  dbCreate := fun _ => none
  now := "t0"
  rand := "r0"

/-- `envOk` with a Sarvam TTS endpoint failing for Tamil. -/
def envTtsTaFails : Env :=
  { envOk with
    sarvamTtsFetch := fun _ code =>
      if code = "ta-IN" then .error "synth down" else .ok (some "AUDIO64") }

/-- `envOk` with a failing Cloudinary upload. -/
def envUploadFails : Env :=
  { envOk with cloudinaryUpload := fun _ _ => .error "cloud down" }

/-- `envOk` whose STT transcript is whitespace only. -/
def envSttBlank : Env :=
  { envOk with sarvamSttFetch := fun _ _ => .ok ⟨"  ", some "hi-IN"⟩ }

/-- A three-member group conversation `c1`: `u1` (hi, ADMIN), `u2` (ta),
`u3` (te). -/
def db3 : DB where
  users := [⟨"u1", "hi"⟩, ⟨"u2", "ta"⟩, ⟨"u3", "te"⟩]
  conversations := [⟨"c1", ConvType.GROUP⟩]
  members := [⟨"c1", "u1", Role.ADMIN⟩, ⟨"c1", "u2", Role.MEMBER⟩,
              ⟨"c1", "u3", Role.MEMBER⟩]
  messages := []
  nextId := 0

/-- A two-member conversation `c2` whose members share language `en`. -/
def db2en : DB where
  users := [⟨"a1", "en"⟩, ⟨"a2", "en"⟩]
  conversations := [⟨"c2", ConvType.DIRECT⟩]
  members := [⟨"c2", "a1", Role.MEMBER⟩, ⟨"c2", "a2", Role.MEMBER⟩]
  messages := []
  nextId := 0

/-- The Message rows a run appended beyond an initial store. -/
def newRows (db : DB) (msgs : List Message) : List Message :=
  msgs.drop db.messages.length

/-! ## Theorems -/

/-- C5: a send (text, HTTP voice, or socket voice) whose sender is not a
member of the target conversation fails with the not-a-member error; the
store is unchanged (zero Message rows persisted), zero realtime events are
emitted, and zero provider (translation/STT/TTS/storage) calls are made. -/
theorem C5_non_member_send_rejected
    (env : Env) (db : DB) (conversationId userId text audioBase64 : String)
    (hnm : isConversationMember db conversationId userId = false) :
    (isBlank text = false →
      sendMessage env db conversationId userId text =
        ⟨db, [], [], [], .error "User is not a member of this conversation"⟩) ∧
    (isBlank audioBase64 = false →
      voiceHttpRoute env db conversationId userId audioBase64 =
        ⟨db, [], [], ["http_incoming"], makeTraceId env.now env.rand,
         .error "User is not a member of this conversation"⟩) ∧
    sendVoiceSocket env db conversationId userId audioBase64 =
      ⟨db, [], [], ["socket_incoming"], makeTraceId env.now env.rand,
       .error "User is not a member of this conversation"⟩ := by
  refine ⟨fun ht => ?_, fun ha => ?_, ?_⟩
  · simp [sendMessage, ht, hnm]
  · simp [voiceHttpRoute, ha, hnm]
  · simp [sendVoiceSocket, hnm]

/-- C5 witness: the concrete non-member `ux` of conversation `c1`. -/
theorem C5_witness :
    sendMessage envOk db3 "c1" "ux" "hello" =
      ⟨db3, [], [], [], .error "User is not a member of this conversation"⟩ ∧
    voiceHttpRoute envOk db3 "c1" "ux" "AUD" =
      ⟨db3, [], [], ["http_incoming"], makeTraceId envOk.now envOk.rand,
       .error "User is not a member of this conversation"⟩ ∧
    sendVoiceSocket envOk db3 "c1" "ux" "AUD" =
      ⟨db3, [], [], ["socket_incoming"], makeTraceId envOk.now envOk.rand,
       .error "User is not a member of this conversation"⟩ :=
  ⟨(C5_non_member_send_rejected envOk db3 "c1" "ux" "hello" "AUD" (by decide)).1
      (by decide),
   (C5_non_member_send_rejected envOk db3 "c1" "ux" "hello" "AUD" (by decide)).2.1
      (by decide),
   (C5_non_member_send_rejected envOk db3 "c1" "ux" "hello" "AUD" (by decide)).2.2⟩

/-- Blank input short circuits `translateText` to the empty string with no
provider call, for every language pair and every environment. -/
theorem translateText_blank (env : Env) (text targetLanguage sourceLanguage : String)
    (h : isBlank text = true) :
    translateText env text targetLanguage sourceLanguage = (.ok "", []) := by
  simp [translateText, h]

/-- An `.ok` result of `speechToText` comes from an `.ok` fetch and carries
its transcript verbatim. -/
theorem speechToText_ok_transcript (env : Env) (audio hint : String) (r : SttResult)
    (h : (speechToText env audio hint).1 = .ok r) :
    ∃ raw, env.sarvamSttFetch audio (sttToBcp47 hint) = .ok raw ∧
      r.text = raw.transcript := by
  unfold speechToText at h
  split at h
  · split at h
    · simp at h
    · dsimp only at h
      cases heq : env.sarvamSttFetch audio (sttToBcp47 hint) with
      | error e => rw [heq] at h; simp at h
      | ok raw =>
          rw [heq] at h
          refine ⟨raw, rfl, ?_⟩
          simp at h
          rw [← h]
  · simp at h

/-- When the source transcript is blank, every row the voice loop appends
carries the empty translated text. -/
theorem voiceLoop_blank_source (env : Env)
    (conversationId senderId sourceText sourceLanguage : String)
    (originalAudioUrl : Option String)
    (hb : isBlank sourceText = true) :
    ∀ (ms : List User) (db : DB),
      ∀ m ∈ (voiceLoop env conversationId senderId sourceText sourceLanguage
          originalAudioUrl ms db).1.messages,
        m ∈ db.messages ∨ m.translatedText = "" := by
  intro ms
  induction ms with
  | nil => intro db m hm; exact .inl hm
  | cons r rest ih =>
    intro db m hm
    rw [voiceLoop] at hm
    rw [translateText_blank env sourceText r.preferredLanguage sourceLanguage hb] at hm
    simp only at hm
    split at hm
    · exact .inl hm
    · split at hm
      · exact .inl hm
      · split at hm
        · exact .inl hm
        · rcases ih _ m hm with h | h
          · rw [List.mem_append] at h
            rcases h with h | h
            · exact .inl h
            · simp at h
              right
              rw [h]
          · exact .inr h

/-- The TTS language gate as a predicate: a code passes `toBcp47Language`
iff it already contains a dash or its lower-casing is one of the nine
mapped codes. -/
def ttsLangOk (l : String) : Bool :=
  hasDash (lcStr l) ||
    ["en", "hi", "ta", "te", "ml", "kn", "bn", "gu", "mr"].contains (lcStr l)

/-- The lookup table succeeds exactly on its nine codes. -/
theorem bcp47Map_isSome (l : String) :
    (bcp47Map l).isSome =
      ["en", "hi", "ta", "te", "ml", "kn", "bn", "gu", "mr"].contains l := by
  unfold bcp47Map
  split_ifs with h1 h2 h3 h4 h5 h6 h7 h8 h9 <;> simp_all

/-- `toBcp47Language` of `tts.js` succeeds exactly on `ttsLangOk` codes. -/
theorem ttsToBcp47_isSome (language : String) :
    (ttsToBcp47 language).isSome = ttsLangOk language := by
  unfold ttsToBcp47 ttsLangOk
  dsimp only
  split_ifs with h <;> simp [h, bcp47Map_isSome]

/-- A successful synthesis needs blank text or a supported language. -/
theorem tts_ok_lang (env : Env) (text language : String) (a : Option String)
    (h : (textToSpeechBase64 env text language).1 = .ok a) :
    isBlank text = true ∨ ttsLangOk language = true := by
  unfold textToSpeechBase64 at h
  split at h
  · split at h
    next hb => exact .inl hb
    next hb =>
      split at h
      · simp at h
      next code hc =>
        right
        rw [← ttsToBcp47_isSome, hc]
        rfl
  · simp at h

/-- A fully successful voice fan-out requires, for every recipient, that
the recipient's translated text was blank or its language passed the TTS
gate. -/
theorem voiceLoop_ok_member_gate (env : Env)
    (cid sid sourceText sourceLanguage : String)
    (originalAudioUrl : Option String) :
    ∀ (ms : List User) (db : DB),
      (voiceLoop env cid sid sourceText sourceLanguage originalAudioUrl
        ms db).2.2.2.2 = .ok () →
      ∀ m ∈ ms, ∀ t,
        (translateText env sourceText m.preferredLanguage sourceLanguage).1
          = .ok t →
        isBlank t = true ∨ ttsLangOk m.preferredLanguage = true := by
  intro ms
  induction ms with
  | nil => intro db _ m hm; simp at hm
  | cons r rest ih =>
    intro db hok m hm t htm
    rw [voiceLoop] at hok
    split at hok
    · simp at hok
    next t' htr =>
      dsimp only at hok
      split at hok
      · simp at hok
      next a hts =>
        split at hok
        · simp at hok
        next u hup =>
          split at hok
          · simp at hok
          next hdb =>
            rcases List.mem_cons.mp hm with hmr | hmr
            · subst hmr
              rw [htm] at htr
              injection htr with htt
              rw [htt]
              exact tts_ok_lang env t' m.preferredLanguage a hts
            · exact ih _ hok m hmr t htm

/-- Character-level prefix test, used to recognise a stage tag. -/
def listIsHead : List Char → List Char → Bool
  | [], _ => true
  | _ :: _, [] => false
  | c :: cs, d :: ds => c = d && listIsHead cs ds

/-- The result is a failure tagged `sarvam-tts`. -/
def taggedSarvamTts (r : Except String Unit) : Bool :=
  match r with
  | .ok _ => false
  | .error msg => listIsHead ("sarvam-tts: ".data) msg.data

/-- A list is a head of itself followed by anything. -/
theorem listIsHead_append : ∀ p rest : List Char,
    listIsHead p (p ++ rest) = true
  | [], _ => rfl
  | c :: cs, rest => by simp [listIsHead, listIsHead_append cs rest]

/-- Appending a message to the tag yields a tagged failure. -/
theorem taggedSarvamTts_of_append (msg : String) :
    taggedSarvamTts (.error ("sarvam-tts: " ++ msg)) = true := by
  show listIsHead ("sarvam-tts: ".data) (("sarvam-tts: " ++ msg).data) = true
  rw [String.data_append]
  exact listIsHead_append _ _

/-- With a configured Cloudinary and a succeeding upload oracle, the storage
wrapper always succeeds (blank audio short circuits to `null`). -/
theorem uploadAudioBase64_ok_of_oracle (env : Env)
    (hclc : env.cloudinaryConfigured = true)
    (hcl : ∀ a k, ∃ u, env.cloudinaryUpload a k = .ok u)
    (audio : Option String) (k : String) :
    ∃ u, (uploadAudioBase64 env audio k).1 = .ok u := by
  cases audio with
  | none => exact ⟨none, rfl⟩
  | some a =>
    by_cases ha : a = ""
    · exact ⟨none, by simp [uploadAudioBase64, ha]⟩
    · obtain ⟨u, hu⟩ := hcl a k
      exact ⟨some u, by simp [uploadAudioBase64, ha, hclc, hu]⟩

/-- With otherwise-benign providers, a fan-out over members containing a
recipient whose language fails the TTS gate and whose translated text is
non-blank ends in a `sarvam-tts`-tagged error. -/
theorem voiceLoop_bad_member_fails (env : Env)
    (cid sid sourceText sourceLanguage : String)
    (originalAudioUrl : Option String)
    (hcfg : env.sarvamConfigured = true)
    (htr : ∀ tgt, ∃ t,
      (translateText env sourceText tgt sourceLanguage).1 = .ok t)
    (htts : ∀ tx code, ∃ a, env.sarvamTtsFetch tx code = .ok a)
    (hclc : env.cloudinaryConfigured = true)
    (hcl : ∀ a k, ∃ u, env.cloudinaryUpload a k = .ok u)
    (hdb : ∀ m, env.dbCreate m = none) :
    ∀ (ms : List User) (db : DB),
      (∃ m ∈ ms, ttsLangOk m.preferredLanguage = false ∧
        ∀ t, (translateText env sourceText m.preferredLanguage
          sourceLanguage).1 = .ok t → isBlank t = false) →
      taggedSarvamTts (voiceLoop env cid sid sourceText sourceLanguage
        originalAudioUrl ms db).2.2.2.2 = true := by
  intro ms
  induction ms with
  | nil => intro db hbad; simp at hbad
  | cons r rest ih =>
    intro db hbad
    obtain ⟨t, htreq⟩ := htr r.preferredLanguage
    rw [voiceLoop]
    simp only [htreq]
    by_cases hb : isBlank t = true
    · have hts : (textToSpeechBase64 env t r.preferredLanguage).1
          = .ok none := by
        simp [textToSpeechBase64, hcfg, hb]
      simp only [hts]
      simp only [uploadAudioBase64]
      simp only [hdb]
      apply ih
      obtain ⟨m, hm, hgate, hnb⟩ := hbad
      rcases List.mem_cons.mp hm with hmr | hmr
      · exfalso
        subst hmr
        have hfalse := hnb t htreq
        rw [hb] at hfalse
        exact Bool.noConfusion hfalse
      · exact ⟨m, hmr, hgate, hnb⟩
    · by_cases hg : ttsLangOk r.preferredLanguage = true
      · have hsome : (ttsToBcp47 r.preferredLanguage).isSome = true := by
          rw [ttsToBcp47_isSome, hg]
        obtain ⟨code, hcode⟩ := Option.isSome_iff_exists.mp hsome
        obtain ⟨a, hfetch⟩ := htts t code
        have hts : (textToSpeechBase64 env t r.preferredLanguage).1
            = .ok a := by
          simp [textToSpeechBase64, hcfg, hb, hcode, hfetch]
        simp only [hts]
        obtain ⟨u, hu⟩ := uploadAudioBase64_ok_of_oracle env hclc hcl a
          ("translated_" ++ cid ++ "_" ++ r.id)
        simp only [hu]
        simp only [hdb]
        apply ih
        obtain ⟨m, hm, hgate, hnb⟩ := hbad
        rcases List.mem_cons.mp hm with hmr | hmr
        · exfalso
          subst hmr
          rw [hg] at hgate
          exact Bool.noConfusion hgate
        · exact ⟨m, hmr, hgate, hnb⟩
      · have hgf : ttsLangOk r.preferredLanguage = false := by
          simpa using hg
        have hnone : ttsToBcp47 r.preferredLanguage = none := by
          have h1 := ttsToBcp47_isSome r.preferredLanguage
          rw [hgf] at h1
          exact Option.not_isSome_iff_eq_none.mp (by simp [h1])
        have hts : (textToSpeechBase64 env t r.preferredLanguage).1
            = .error ("Unsupported TTS language: " ++ r.preferredLanguage) := by
          simp [textToSpeechBase64, hcfg, hb, hnone]
        simp only [hts]
        exact taggedSarvamTts_of_append _

/-- With a blank transcript, a configured Sarvam key and a succeeding
persistence layer, every branch of the fan-out succeeds, appending one row
per recipient (TTS yields no audio, so the translated upload short circuits
to `null` without a Cloudinary call). -/
theorem voiceLoop_blank_ok (env : Env)
    (cid sid sourceText sourceLanguage : String)
    (originalAudioUrl : Option String)
    (hb : isBlank sourceText = true)
    (hcfg : env.sarvamConfigured = true)
    (hdb : ∀ m, env.dbCreate m = none) :
    ∀ (ms : List User) (db : DB),
      (voiceLoop env cid sid sourceText sourceLanguage originalAudioUrl
        ms db).2.2.2.2 = .ok () ∧
      (voiceLoop env cid sid sourceText sourceLanguage originalAudioUrl
        ms db).1.messages.length = db.messages.length + ms.length := by
  intro ms
  induction ms with
  | nil => intro db; exact ⟨rfl, rfl⟩
  | cons r rest ih =>
    intro db
    rw [voiceLoop,
      translateText_blank env sourceText r.preferredLanguage sourceLanguage hb]
    have hts : (textToSpeechBase64 env "" r.preferredLanguage).1
        = .ok none := by
      simp [textToSpeechBase64, hcfg]
      rfl
    dsimp only
    simp only [hts]
    simp only [uploadAudioBase64]
    simp only [hdb]
    obtain ⟨ih1, ih2⟩ := ih _
    refine ⟨ih1, ?_⟩
    rw [ih2]
    simp only [List.length_append, List.length_cons, List.length_nil]
    omega

/-- C10: blank (empty or whitespace-only) input makes `translateText` return
the empty string for every language pair — also when source equals target —
without any provider call (so no credential is needed); consequently a voice
send whose transcript is blank only persists rows whose translated text is
the empty string, and with the remaining stages succeeding it does persist
one such row per member. -/
theorem C10_blank_text_noop_translation
    (env : Env) (text targetLanguage sourceLanguage : String)
    (hblank : isBlank text = true)
    (db : DB) (conversationId senderId audioBase64 : String)
    (s : User) (stt : SttResult) (u0 : Option String)
    (hstt : ∀ a c raw, env.sarvamSttFetch a c = .ok raw →
      isBlank raw.transcript = true) :
    translateText env text targetLanguage sourceLanguage = (.ok "", []) ∧
    ((processAndEmitVoiceMessage env db conversationId senderId
        audioBase64).db.messages.all
      fun m => db.messages.contains m || m.translatedText == "") = true ∧
    ((getConversationMembers db conversationId).find?
        (fun m => m.id = senderId) = some s →
      (uploadAudioBase64 env (some audioBase64)
        ("original_" ++ conversationId)).1 = .ok u0 →
      (speechToText env audioBase64
        (if s.preferredLanguage = "" then "auto"
         else s.preferredLanguage)).1 = .ok stt →
      env.sarvamConfigured = true →
      (∀ m, env.dbCreate m = none) →
      (processAndEmitVoiceMessage env db conversationId senderId
        audioBase64).result = .ok () ∧
      (processAndEmitVoiceMessage env db conversationId senderId
        audioBase64).db.messages.length
        = db.messages.length
          + (getConversationMembers db conversationId).length) := by
  refine ⟨translateText_blank env text targetLanguage sourceLanguage hblank,
    ?_, ?_⟩
  · rw [List.all_eq_true]
    intro m hm
    have hrow : m ∈ db.messages ∨ m.translatedText = "" := by
      unfold processAndEmitVoiceMessage at hm
      split at hm
      · exact .inl hm
      next s' hs =>
        split at hm
        · exact .inl hm
        next url hurl =>
          split at hm
          · exact .inl hm
          next stt' hstt' =>
            obtain ⟨raw, hraw, htextr⟩ := speechToText_ok_transcript env
              audioBase64
              (if s'.preferredLanguage = "" then "auto"
               else s'.preferredLanguage)
              stt' hstt'
            have hbl : isBlank stt'.text = true := by
              rw [htextr]; exact hstt _ _ raw hraw
            exact voiceLoop_blank_source env conversationId senderId stt'.text
              _ _ hbl _ db m hm
    rcases hrow with h | h
    · simp only [Bool.or_eq_true]
      exact Or.inl (List.elem_eq_true_of_mem h)
    · simp [h]
  · intro hfind hup hsp hcfg hdb
    have hbl : isBlank stt.text = true := by
      obtain ⟨raw, hraw, htextr⟩ := speechToText_ok_transcript env audioBase64
        (if s.preferredLanguage = "" then "auto" else s.preferredLanguage)
        stt hsp
      rw [htextr]
      exact hstt _ _ raw hraw
    unfold processAndEmitVoiceMessage
    rw [hfind]
    dsimp only
    rw [hup]
    dsimp only
    rw [hsp]
    dsimp only
    obtain ⟨h1, h2⟩ := voiceLoop_blank_ok env conversationId senderId stt.text
      (if stt.language = "" then env.detect stt.text s.preferredLanguage
       else stt.language)
      u0 hbl hcfg hdb (getConversationMembers db conversationId) db
    exact ⟨h1, h2⟩

/-- C10 witness: a whitespace-only text, and a voice send whose STT
transcript is whitespace-only — bounded rows, and a successful concrete run
persisting one empty-translation row per member of the three-member
conversation. -/
theorem C10_witness :
    translateText envSttBlank " " "en" "en" = (.ok "", []) ∧
    ((processAndEmitVoiceMessage envSttBlank db3 "c1" "u1" "AUD").db.messages.all
      fun m => db3.messages.contains m || m.translatedText == "") = true ∧
    ((processAndEmitVoiceMessage envSttBlank db3 "c1" "u1" "AUD").result
      = .ok () ∧
     (processAndEmitVoiceMessage envSttBlank db3 "c1" "u1" "AUD").db.messages.length
      = db3.messages.length + (getConversationMembers db3 "c1").length) := by
  have hthm := C10_blank_text_noop_translation envSttBlank " " "en" "en"
    (by decide) db3 "c1" "u1" "AUD" ⟨"u1", "hi"⟩ ⟨"  ", "hi"⟩
    (some "url_original_c1")
    (fun a c raw h => by injection h with h'; rw [← h']; decide)
  exact ⟨hthm.1, hthm.2.1, hthm.2.2 (by decide) rfl rfl rfl (fun m => rfl)⟩

/-- A two-member conversation `c9`: `u1` (hi) and `uf` (fr, a language the
TTS gate does not support). -/
def dbF : DB where
  users := [⟨"u1", "hi"⟩, ⟨"uf", "fr"⟩]
  conversations := [⟨"c9", ConvType.DIRECT⟩]
  members := [⟨"c9", "u1", Role.MEMBER⟩, ⟨"c9", "uf", Role.MEMBER⟩]
  messages := []
  nextId := 0

/-- C9: synthesis only supports the nine codes en, hi, ta, te, ml, kn, bn,
gu, mr (case-insensitively) plus codes already containing a dash: for
non-blank text and a configured key, any other language makes
`textToSpeechBase64` fail with the `Unsupported TTS language` error; a
voice send to a conversation containing a member with such a language and
non-blank translated text can never succeed; and when the other providers
behave, such a send fails with a `sarvam-tts`-tagged error. -/
theorem C9_tts_language_gate
    (env : Env) (db : DB)
    (conversationId senderId audioBase64 L text language : String)
    (s : User) (stt : SttResult)
    (hcfg : env.sarvamConfigured = true) (htext : isBlank text = false)
    (hdash : hasDash (lcStr language) = false)
    (hnine : (["en", "hi", "ta", "te", "ml", "kn", "bn", "gu", "mr"].contains
      (lcStr language)) = false)
    (hfind : (getConversationMembers db conversationId).find?
      (fun m => m.id = senderId) = some s)
    (hsp : (speechToText env audioBase64
      (if s.preferredLanguage = "" then "auto"
       else s.preferredLanguage)).1 = .ok stt)
    (hsrc : (if stt.language = "" then env.detect stt.text s.preferredLanguage
      else stt.language) = L) :
    textToSpeechBase64 env text language =
      (.error ("Unsupported TTS language: " ++ language), []) ∧
    (∀ m ∈ getConversationMembers db conversationId, ∀ t,
      (translateText env stt.text m.preferredLanguage L).1 = .ok t →
      isBlank t = false → ttsLangOk m.preferredLanguage = false →
      (processAndEmitVoiceMessage env db conversationId senderId
        audioBase64).result ≠ .ok ()) ∧
    ((∀ tgt, ∃ t, (translateText env stt.text tgt L).1 = .ok t) →
      (∀ tx code, ∃ a, env.sarvamTtsFetch tx code = .ok a) →
      env.cloudinaryConfigured = true →
      (∀ a k, ∃ u, env.cloudinaryUpload a k = .ok u) →
      (∀ m, env.dbCreate m = none) →
      (∃ m ∈ getConversationMembers db conversationId,
        ttsLangOk m.preferredLanguage = false ∧
        ∀ t, (translateText env stt.text m.preferredLanguage L).1 = .ok t →
          isBlank t = false) →
      taggedSarvamTts (processAndEmitVoiceMessage env db conversationId
        senderId audioBase64).result = true) := by
  refine ⟨?_, ?_, ?_⟩
  · have hlang : ttsLangOk language = false := by
      unfold ttsLangOk
      rw [hdash, hnine]
      rfl
    have hnone : ttsToBcp47 language = none := by
      have h1 := ttsToBcp47_isSome language
      rw [hlang] at h1
      exact Option.not_isSome_iff_eq_none.mp (by simp [h1])
    simp [textToSpeechBase64, hcfg, htext, hnone]
  · intro m hm t htm hnb hgate hok
    unfold processAndEmitVoiceMessage at hok
    rw [hfind] at hok
    dsimp only at hok
    cases hup : (uploadAudioBase64 env (some audioBase64)
        ("original_" ++ conversationId)).1 with
    | error err => rw [hup] at hok; simp at hok
    | ok u0 =>
      rw [hup] at hok
      dsimp only at hok
      rw [hsp] at hok
      dsimp only at hok
      rw [hsrc] at hok
      rcases voiceLoop_ok_member_gate env conversationId senderId stt.text L
        u0 (getConversationMembers db conversationId) db hok m hm t htm
        with h | h
      · rw [hnb] at h
        exact Bool.noConfusion h
      · rw [hgate] at h
        exact Bool.noConfusion h
  · intro htr htts hclc hcl hdb hbad
    unfold processAndEmitVoiceMessage
    rw [hfind]
    dsimp only
    obtain ⟨u0, hu0⟩ := uploadAudioBase64_ok_of_oracle env hclc hcl
      (some audioBase64) ("original_" ++ conversationId)
    rw [hu0]
    dsimp only
    rw [hsp]
    dsimp only
    rw [hsrc]
    exact voiceLoop_bad_member_fails env conversationId senderId stt.text L
      u0 hcfg htr htts hclc hcl hdb (getConversationMembers db conversationId)
      db hbad

/-- C9 witness: `fr` (no dash, not among the nine) is rejected at the TTS
level; the concrete send to `c9` — whose member `uf` prefers `fr` and whose
translated text is non-blank — cannot succeed, and with all other providers
succeeding it fails with a `sarvam-tts`-tagged error. -/
theorem C9_witness :
    textToSpeechBase64 envOk "hello" "fr" =
      (.error "Unsupported TTS language: fr", []) ∧
    (processAndEmitVoiceMessage envOk dbF "c9" "u1" "AUD").result ≠ .ok () ∧
    taggedSarvamTts
      (processAndEmitVoiceMessage envOk dbF "c9" "u1" "AUD").result = true := by
  have hthm := C9_tts_language_gate envOk dbF "c9" "u1" "AUD" "hi" "hello"
    "fr" ⟨"u1", "hi"⟩ ⟨"hello", "hi"⟩
    (by decide) (by decide) (by decide) (by decide) (by decide) rfl rfl
  refine ⟨hthm.1, ?_, ?_⟩
  · exact hthm.2.1 ⟨"uf", "fr"⟩ (by decide) "(fr)hello" rfl (by decide)
      (by decide)
  · refine hthm.2.2 ?_ (fun tx code => ⟨some "AUDIO64", rfl⟩) rfl
      (fun a k => ⟨"url_" ++ k, rfl⟩) (fun m => rfl) ?_
    · intro tgt
      unfold translateText
      by_cases h : "hi" = tgt
      · rw [if_neg (by decide), if_pos h]
        exact ⟨"hello", rfl⟩
      · rw [if_neg (by decide), if_neg h, if_pos (by decide)]
        exact ⟨"(" ++ tgt ++ ")" ++ "hello", rfl⟩
    · refine ⟨⟨"uf", "fr"⟩, by decide, by decide, ?_⟩
      intro t ht
      have ht' : Except.ok "(fr)hello" = Except.ok t := ht
      injection ht' with h
      rw [← h]
      decide

/-- When every recipient's preferred language equals the source language,
the text fan-out succeeds, makes no provider call, and every appended row
carries the original text as its translation. -/
theorem textLoop_identity (env : Env) (cid sid text L : String)
    (htext : isBlank text = false) :
    ∀ (ms : List User) (db : DB), (∀ m ∈ ms, m.preferredLanguage = L) →
      (textLoop env cid sid text L ms db).2.2.2 = .ok () ∧
      (textLoop env cid sid text L ms db).2.2.1 = [] ∧
      ∀ m ∈ (textLoop env cid sid text L ms db).1.messages,
        m ∈ db.messages ∨ m.translatedText = text := by
  intro ms
  induction ms with
  | nil => intro db _; exact ⟨rfl, rfl, fun m hm => .inl hm⟩
  | cons r rest ih =>
    intro db hall
    have hr : r.preferredLanguage = L := hall r (by simp)
    have htr : translateText env text r.preferredLanguage L = (.ok text, []) := by
      rw [hr]
      simp [translateText, htext]
    rw [textLoop]
    rw [htr]
    dsimp only
    obtain ⟨h1, h2, h3⟩ := ih _ (fun m hm => hall m (by simp [hm]))
    refine ⟨h1, by simp [h2], ?_⟩
    intro m hm
    rcases h3 m hm with h | h
    · rw [List.mem_append] at h
      rcases h with h | h
      · exact .inl h
      · simp at h
        right
        rw [h]
    · exact .inr h


/-- C2: a text send with non-blank text whose detected source language
equals every member's preferred language succeeds, persists only rows whose
translated text is the original verbatim, and never invokes any provider
(so no translation credential is needed). -/
theorem C2_identity_short_circuit (env : Env) (db : DB)
    (conversationId senderId text L : String) (s : User)
    (htext : isBlank text = false)
    (hmem : isConversationMember db conversationId senderId = true)
    (hfind : (getConversationMembers db conversationId).find?
      (fun m => m.id = senderId) = some s)
    (hdet : env.detect text
      (if s.preferredLanguage = "" then "en" else s.preferredLanguage) = L)
    (hall : ∀ m ∈ getConversationMembers db conversationId,
      m.preferredLanguage = L) :
    (sendMessage env db conversationId senderId text).result = .ok () ∧
    (sendMessage env db conversationId senderId text).calls = [] ∧
    ((sendMessage env db conversationId senderId text).db.messages.all
      fun m => db.messages.contains m || m.translatedText == text) = true := by
  obtain ⟨h1, h2, h3⟩ := textLoop_identity env conversationId senderId text L
    htext (getConversationMembers db conversationId) db hall
  unfold sendMessage
  rw [htext, hmem, hfind]
  dsimp only
  rw [hdet]
  refine ⟨h1, h2, ?_⟩
  rw [List.all_eq_true]
  intro m hm
  rcases h3 m hm with h | h
  · simp only [Bool.or_eq_true]
    exact Or.inl (List.elem_eq_true_of_mem h)
  · simp [h]


/-- `envOk` without a translation credential. -/
def envNoLingo : Env :=
  { envOk with lingoConfigured := false }

/-- C2 witness: both members of `c2` prefer `en`, detection returns `en`,
and the send succeeds with verbatim rows even though no translation
credential is configured. -/
theorem C2_witness :
    (sendMessage envNoLingo db2en "c2" "a1" "hi there").result = .ok () ∧
    (sendMessage envNoLingo db2en "c2" "a1" "hi there").calls = [] ∧
    ((sendMessage envNoLingo db2en "c2" "a1" "hi there").db.messages.all
      fun m => db2en.messages.contains m || m.translatedText == "hi there") = true :=
  C2_identity_short_circuit envNoLingo db2en "c2" "a1" "hi there" "en"
    ⟨"a1", "en"⟩ (by decide) (by decide) (by decide) (by rfl)
    (by decide)


/-- Shape of a successful text fan-out: one TEXT row and one
`receiveMessage` event per recipient, in order, each carrying that
recipient's preferred language as target. -/
theorem textLoop_ok_shape (env : Env) (cid sid text L : String) :
    ∀ (ms : List User) (db : DB),
      (textLoop env cid sid text L ms db).2.2.2 = .ok () →
      ∃ rows,
        (textLoop env cid sid text L ms db).1.messages = db.messages ++ rows ∧
        rows.map Message.targetLanguage = ms.map User.preferredLanguage ∧
        (∀ m ∈ rows, m.kind = MsgKind.TEXT ∧ m.conversationId = cid ∧
          m.senderId = sid ∧ m.originalText = text) ∧
        (textLoop env cid sid text L ms db).2.1.map EmitEvent.targetLanguage
          = ms.map User.preferredLanguage ∧
        (∀ e ∈ (textLoop env cid sid text L ms db).2.1,
          e.room = cid ∧ e.event = "receiveMessage") := by
  intro ms
  induction ms with
  | nil =>
    intro db _
    exact ⟨[], by simp [textLoop], by simp [textLoop], by simp, by simp [textLoop],
      by simp [textLoop]⟩
  | cons r rest ih =>
    intro db hok
    rw [textLoop] at hok ⊢
    split at hok
    next err heq => simp at hok
    next t heq =>
      simp only [heq]
      obtain ⟨rows, hmsgs, hmap, hprops, hevmap, hevprops⟩ := ih _ hok
      refine ⟨(⟨db.nextId, cid, sid, MsgKind.TEXT, text, t, L,
          r.preferredLanguage, none, none⟩ : Message) :: rows,
        ?_, ?_, ?_, ?_, ?_⟩
      · rw [hmsgs]
        simp
      · simp [hmap]
      · intro m hm
        rcases List.mem_cons.mp hm with h | h
        · rw [h]
          exact ⟨rfl, rfl, rfl, rfl⟩
        · exact hprops m h
      · simp [hevmap]
      · intro e he
        rcases List.mem_cons.mp he with h | h
        · rw [h]
          exact ⟨rfl, rfl⟩
        · exact hevprops e h


/-- Shape of any successful `sendMessage` run: one TEXT row and one event
per current member, in member order, with that member's preferred language
as target. -/
theorem sendMessage_ok_shape (env : Env) (db : DB)
    (conversationId senderId text : String)
    (hok : (sendMessage env db conversationId senderId text).result = .ok ()) :
    (sendMessage env db conversationId senderId text).db.messages.length
        = db.messages.length
          + (getConversationMembers db conversationId).length ∧
    (newRows db (sendMessage env db conversationId senderId
        text).db.messages).map Message.targetLanguage
      = (getConversationMembers db conversationId).map User.preferredLanguage ∧
    ((newRows db (sendMessage env db conversationId senderId
        text).db.messages).all fun m =>
      m.kind == MsgKind.TEXT && m.conversationId == conversationId
        && m.senderId == senderId) = true ∧
    (sendMessage env db conversationId senderId text).emits.map
        EmitEvent.targetLanguage
      = (getConversationMembers db conversationId).map User.preferredLanguage ∧
    ((sendMessage env db conversationId senderId text).emits.all fun e =>
      e.room == conversationId && e.event == "receiveMessage") = true := by
  unfold sendMessage at hok ⊢
  cases hblank : isBlank text with
  | true => rw [hblank] at hok; simp at hok
  | false =>
    rw [hblank] at hok
    simp only [Bool.false_eq_true, if_false] at hok ⊢
    cases hmem : isConversationMember db conversationId senderId with
    | false => rw [hmem] at hok; simp at hok
    | true =>
      rw [hmem] at hok
      simp only [if_true] at hok ⊢
      cases hfind : (getConversationMembers db conversationId).find? fun m =>
          m.id = senderId with
      | none => rw [hfind] at hok; simp at hok
      | some s =>
        rw [hfind] at hok
        dsimp only at hok ⊢
        obtain ⟨rows, hmsgs, hmap, hprops, hevmap, hevprops⟩ :=
          textLoop_ok_shape env conversationId senderId text
            (env.detect text
              (if s.preferredLanguage = "" then "en" else s.preferredLanguage))
            (getConversationMembers db conversationId) db hok
        have hrowslen : rows.length
            = (getConversationMembers db conversationId).length := by
          have := congrArg List.length hmap
          simpa using this
        have hnew : newRows db (textLoop env conversationId senderId text
            (env.detect text
              (if s.preferredLanguage = "" then "en" else s.preferredLanguage))
            (getConversationMembers db conversationId) db).1.messages = rows := by
          unfold newRows
          rw [hmsgs]
          exact List.drop_left _ _
        refine ⟨?_, ?_, ?_, hevmap, ?_⟩
        · rw [hmsgs]
          simp [hrowslen]
        · rw [hnew, hmap]
        · rw [hnew, List.all_eq_true]
          intro m hm
          obtain ⟨h1, h2, h3, _⟩ := hprops m hm
          simp [h1, h2, h3]
        · rw [List.all_eq_true]
          intro e he
          obtain ⟨h1, h2⟩ := hevprops e he
          simp [h1, h2]


/-- C6: a successful text send to a conversation with N members creates
exactly N TEXT rows and emits exactly N events to the conversation's room —
one per member, in member order (the sender included), each carrying that
member's preferred language as target, even when two members share a
language. -/
theorem C6_one_row_per_member (env : Env) (db : DB)
    (conversationId senderId text : String)
    (hok : (sendMessage env db conversationId senderId text).result = .ok ()) :
    (sendMessage env db conversationId senderId text).db.messages.length
        = db.messages.length
          + (getConversationMembers db conversationId).length ∧
    (newRows db (sendMessage env db conversationId senderId
        text).db.messages).map Message.targetLanguage
      = (getConversationMembers db conversationId).map User.preferredLanguage ∧
    ((newRows db (sendMessage env db conversationId senderId
        text).db.messages).all fun m =>
      m.kind == MsgKind.TEXT && m.conversationId == conversationId
        && m.senderId == senderId) = true ∧
    (sendMessage env db conversationId senderId text).emits.map
        EmitEvent.targetLanguage
      = (getConversationMembers db conversationId).map User.preferredLanguage ∧
    ((sendMessage env db conversationId senderId text).emits.all fun e =>
      e.room == conversationId && e.event == "receiveMessage") = true :=
  sendMessage_ok_shape env db conversationId senderId text hok

/-- C6 witness: a successful send to `c2`, whose two members share the
preferred language `en` — two rows and two events, one per member. -/
theorem C6_witness :
    (sendMessage envNoLingo db2en "c2" "a1" "hey").db.messages.length
        = db2en.messages.length + (getConversationMembers db2en "c2").length ∧
    (newRows db2en (sendMessage envNoLingo db2en "c2" "a1"
        "hey").db.messages).map Message.targetLanguage
      = (getConversationMembers db2en "c2").map User.preferredLanguage ∧
    ((newRows db2en (sendMessage envNoLingo db2en "c2" "a1"
        "hey").db.messages).all fun m =>
      m.kind == MsgKind.TEXT && m.conversationId == "c2"
        && m.senderId == "a1") = true ∧
    (sendMessage envNoLingo db2en "c2" "a1" "hey").emits.map
        EmitEvent.targetLanguage
      = (getConversationMembers db2en "c2").map User.preferredLanguage ∧
    ((sendMessage envNoLingo db2en "c2" "a1" "hey").emits.all fun e =>
      e.room == "c2" && e.event == "receiveMessage") = true :=
  C6_one_row_per_member envNoLingo db2en "c2" "a1" "hey" (by rfl)


/-- The text fan-out only touches `messages` and `nextId`. -/
theorem textLoop_store_inv (env : Env) (cid sid text L : String) :
    ∀ (ms : List User) (db : DB),
      (textLoop env cid sid text L ms db).1.users = db.users ∧
      (textLoop env cid sid text L ms db).1.members = db.members ∧
      (textLoop env cid sid text L ms db).1.conversations = db.conversations := by
  intro ms
  induction ms with
  | nil => intro db; exact ⟨rfl, rfl, rfl⟩
  | cons r rest ih =>
    intro db
    rw [textLoop]
    split
    · exact ⟨rfl, rfl, rfl⟩
    · exact ih _

/-- `sendMessage` only touches `messages` and `nextId`. -/
theorem sendMessage_store_inv (env : Env) (db : DB)
    (conversationId senderId text : String) :
    (sendMessage env db conversationId senderId text).db.users = db.users ∧
    (sendMessage env db conversationId senderId text).db.members = db.members ∧
    (sendMessage env db conversationId senderId text).db.conversations
      = db.conversations := by
  unfold sendMessage
  split
  · exact ⟨rfl, rfl, rfl⟩
  · split
    · split
      · exact ⟨rfl, rfl, rfl⟩
      · exact textLoop_store_inv env conversationId senderId text _ _ db
    · exact ⟨rfl, rfl, rfl⟩

/-- Updating one user's preferred language updates the user row the
membership join resolves. -/
theorem find?_map_update (uid L2 : String) :
    ∀ l : List User, (l.find? fun u => u.id = uid).isSome = true →
      ∃ u, l.find? (fun u => u.id = uid) = some u ∧
        ((l.map fun u => if u.id = uid then { u with preferredLanguage := L2 }
            else u).find? fun u => u.id = uid)
          = some { u with preferredLanguage := L2 } := by
  intro l
  induction l with
  | nil => intro h; simp at h
  | cons a t ih =>
    intro h
    by_cases ha : a.id = uid
    · refine ⟨a, ?_, ?_⟩
      · exact List.find?_cons_of_pos _ (by simp [ha])
      · rw [List.map_cons, if_pos ha]
        exact List.find?_cons_of_pos _ (by simp [ha])
    · rw [List.find?_cons_of_neg _ (by simp [ha])] at h
      obtain ⟨u, hu, hu2⟩ := ih h
      refine ⟨u, ?_, ?_⟩
      · rw [List.find?_cons_of_neg _ (by simp [ha])]
        exact hu
      · rw [List.map_cons, if_neg ha]
        rw [List.find?_cons_of_neg _ (by simp [ha])]
        exact hu2

/-- After an update of `uid`'s preferred language, every member entry the
join resolves for `uid` carries the new language. -/
theorem getMembers_pref_of_update (db : DB) (cid uid L2 : String)
    (hL2 : L2 ≠ "") (huser : (findUser db uid).isSome = true) :
    ∀ m ∈ getConversationMembers (updateUserLanguage db uid L2) cid,
      m.id = uid → m.preferredLanguage = L2 := by
  intro m hm hid
  obtain ⟨u, hu, hu2⟩ := find?_map_update uid L2 db.users huser
  have hupd : findUser (updateUserLanguage db uid L2) uid
      = some { u with preferredLanguage := L2 } := by
    unfold updateUserLanguage findUser
    rw [if_neg hL2]
    exact hu2
  unfold getConversationMembers at hm
  rw [List.mem_filterMap] at hm
  obtain ⟨mm, hmm, hfm⟩ := hm
  have hid2 : m.id = mm.userId := by
    have := List.find?_some hfm
    simpa using this
  rw [hid] at hid2
  rw [← hid2] at hfm
  rw [hupd] at hfm
  injection hfm with hfm'
  rw [← hfm']


/-- C8: the target language of each row is the member's preferred language
as stored when the send resolves members — after updating a member's
preferred language between two sends, every member entry the second send
resolves for that user carries the new language, and the second send's rows
track exactly the resolved member languages (nothing cached from the first
send or join time). -/
theorem C8_language_read_at_send_time
    (env : Env) (db db2 : DB)
    (conversationId senderId1 senderId2 userId text1 text2 L2 : String)
    (hL2 : L2 ≠ "")
    (huser : (findUser db userId).isSome = true)
    (hdb2 : db2 = updateUserLanguage
      (sendMessage env db conversationId senderId1 text1).db userId L2) :
    ((getConversationMembers db2 conversationId).all fun m =>
      m.id != userId || m.preferredLanguage == L2) = true ∧
    ((sendMessage env db2 conversationId senderId2 text2).result = .ok () →
      (newRows db2 (sendMessage env db2 conversationId senderId2
          text2).db.messages).map Message.targetLanguage
        = (getConversationMembers db2 conversationId).map
            User.preferredLanguage) := by
  have husers : (sendMessage env db conversationId senderId1 text1).db.users
      = db.users :=
    (sendMessage_store_inv env db conversationId senderId1 text1).1
  have huser' : (findUser
      (sendMessage env db conversationId senderId1 text1).db userId).isSome
      = true := by
    unfold findUser
    rw [husers]
    exact huser
  subst hdb2
  constructor
  · rw [List.all_eq_true]
    intro m hm
    by_cases hid : m.id = userId
    · have hpref := getMembers_pref_of_update _ conversationId userId L2 hL2
        huser' m hm hid
      simp [hpref]
    · simp [hid]
  · intro hok
    exact (sendMessage_ok_shape env _ conversationId senderId2 text2 hok).2.1

/-- The store after a first send in `c1` and an update of `u2`'s preferred
language from `ta` to `bn`. -/
def dbW8 : DB :=
  updateUserLanguage (sendMessage envOk db3 "c1" "u1" "first").db "u2" "bn"

/-- C8 witness: after updating `u2` to `bn` between two sends, the second
send resolves `u2` at `bn` and its rows carry exactly the resolved member
languages. -/
theorem C8_witness :
    ((getConversationMembers dbW8 "c1").all fun m =>
      m.id != "u2" || m.preferredLanguage == "bn") = true ∧
    (newRows dbW8 (sendMessage envOk dbW8 "c1" "u3" "second").db.messages).map
        Message.targetLanguage
      = (getConversationMembers dbW8 "c1").map User.preferredLanguage :=
  ⟨(C8_language_read_at_send_time envOk db3 dbW8 "c1" "u1" "u3" "u2" "first"
      "second" "bn" (by decide) (by decide) rfl).1,
   (C8_language_read_at_send_time envOk db3 dbW8 "c1" "u1" "u3" "u2" "first"
      "second" "bn" (by decide) (by decide) rfl).2 (by rfl)⟩


/-- `directMatch` only reads the membership rows of the candidate
conversation. -/
theorem directMatch_congr (db1 db : DB) (x y : String) (c : Conversation)
    (h : db1.members.filter (fun m => m.conversationId = c.id)
       = db.members.filter (fun m => m.conversationId = c.id)) :
    directMatch db1 x y c = directMatch db x y c := by
  unfold directMatch
  dsimp only
  rw [h]

/-- The `findFirst` predicate is symmetric in the two users. -/
theorem directMatch_comm (db : DB) (x y : String) (c : Conversation) :
    directMatch db x y c = directMatch db y x c := by
  unfold directMatch
  dsimp only
  rw [decide_eq_decide]
  constructor
  · rintro ⟨h1, h2, h3, h4⟩
    refine ⟨h1, h3, h2, ?_⟩
    rw [List.all_eq_true] at h4 ⊢
    intro m hm
    have hh := h4 m hm
    rw [decide_eq_true_eq] at hh ⊢
    tauto
  · rintro ⟨h1, h2, h3, h4⟩
    refine ⟨h1, h3, h2, ?_⟩
    rw [List.all_eq_true] at h4 ⊢
    intro m hm
    have hh := h4 m hm
    rw [decide_eq_true_eq] at hh ⊢
    tauto


/-- The conversation row `POST /conversations/direct` creates. -/
def freshDirectConv (db : DB) : Conversation :=
  ⟨"conv_" ++ toString db.nextId, ConvType.DIRECT⟩

/-- The two MEMBER rows `POST /conversations/direct` creates. -/
def freshDirectMembers (db : DB) (a b : String) : List ConversationMember :=
  [⟨"conv_" ++ toString db.nextId, a, Role.MEMBER⟩,
   ⟨"conv_" ++ toString db.nextId, b, Role.MEMBER⟩]

/-- The store after a fresh direct-conversation creation. -/
def afterDirectCreate (db : DB) (a b : String) : DB :=
  { db with
    conversations := db.conversations ++ [freshDirectConv db],
    members := db.members ++ freshDirectMembers db a b,
    nextId := db.nextId + 1 }

/-- C4: with no DIRECT conversation of the (distinct) pair present, the
first request creates one; repeating the request — by either user — returns
that same conversation id and leaves the store unchanged (no duplicate). -/
theorem C4_direct_dedup (db : DB) (a b : String)
    (ha : a ≠ "") (hb : b ≠ "") (hab : a ≠ b)
    (hfreshc : ∀ c ∈ db.conversations, c.id ≠ "conv_" ++ toString db.nextId)
    (hfreshm : ∀ m ∈ db.members,
      m.conversationId ≠ "conv_" ++ toString db.nextId)
    (hnone : db.conversations.find? (directMatch db a b) = none) :
    createDirect db a b
      = (afterDirectCreate db a b, .ok ("conv_" ++ toString db.nextId)) ∧
    createDirect (afterDirectCreate db a b) a b
      = (afterDirectCreate db a b, .ok ("conv_" ++ toString db.nextId)) ∧
    createDirect (afterDirectCreate db a b) b a
      = (afterDirectCreate db a b, .ok ("conv_" ++ toString db.nextId)) := by
  have hba : ¬ (b = a) := fun h => hab h.symm
  have hrun : createDirect db a b
      = (afterDirectCreate db a b, .ok ("conv_" ++ toString db.nextId)) := by
    unfold createDirect
    rw [if_neg hb, if_neg hba, hnone]
    rfl
  have hfilterold : ∀ c ∈ db.conversations,
      (afterDirectCreate db a b).members.filter
        (fun m => m.conversationId = c.id)
      = db.members.filter (fun m => m.conversationId = c.id) := by
    intro c hc
    show (db.members ++ freshDirectMembers db a b).filter _ = _
    rw [List.filter_append]
    have hnil : (freshDirectMembers db a b).filter
        (fun m => m.conversationId = c.id) = [] := by
      apply List.filter_eq_nil_iff.mpr
      intro m hm
      unfold freshDirectMembers at hm
      simp only [List.mem_cons, List.not_mem_nil, or_false] at hm
      rcases hm with h | h <;>
        (rw [h]; simp only [decide_eq_true_eq];
         exact fun hkey => (hfreshc c hc) hkey.symm)
    rw [hnil, List.append_nil]
  have hbase : ∀ x y : String,
      db.conversations.find? (directMatch db x y) = none →
      db.conversations.find? (directMatch (afterDirectCreate db a b) x y)
        = none := by
    intro x y hxy
    rw [List.find?_eq_none]
    intro c hc
    rw [directMatch_congr _ db x y c (hfilterold c hc)]
    exact List.find?_eq_none.mp hxy c hc
  have hnoneBA : db.conversations.find? (directMatch db b a) = none := by
    rw [List.find?_eq_none]
    intro c hc
    rw [← directMatch_comm]
    exact List.find?_eq_none.mp hnone c hc
  have hnewfilter : (afterDirectCreate db a b).members.filter
        (fun m => m.conversationId = (freshDirectConv db).id)
      = freshDirectMembers db a b := by
    show (db.members ++ freshDirectMembers db a b).filter _ = _
    rw [List.filter_append]
    have hnil : db.members.filter
        (fun m => m.conversationId = (freshDirectConv db).id) = [] := by
      apply List.filter_eq_nil_iff.mpr
      intro m hm
      simp only [decide_eq_true_eq]
      exact hfreshm m hm
    rw [hnil, List.nil_append]
    unfold freshDirectMembers freshDirectConv
    simp
  have hmatchnew : ∀ x y : String,
      (x = a ∨ x = b) → (y = a ∨ y = b) → x ≠ y →
      directMatch (afterDirectCreate db a b) x y (freshDirectConv db)
        = true := by
    intro x y hx hy hxy
    unfold directMatch
    dsimp only
    rw [hnewfilter]
    rw [decide_eq_true_eq]
    refine ⟨rfl, ?_, ?_, ?_⟩
    · rcases hx with h | h <;>
        simp [freshDirectMembers, h]
    · rcases hy with h | h <;>
        simp [freshDirectMembers, h]
    · rw [List.all_eq_true]
      intro m hm
      unfold freshDirectMembers at hm
      simp only [List.mem_cons, List.not_mem_nil, or_false] at hm
      rcases hx with h | h <;> rcases hy with h' | h' <;>
        first
          | exact absurd (h.trans h'.symm) hxy
          | (rcases hm with hmm | hmm <;> simp [hmm, h, h'])
  have hconvs : (afterDirectCreate db a b).conversations
      = db.conversations ++ [freshDirectConv db] := rfl
  have hfindAB : (afterDirectCreate db a b).conversations.find?
        (directMatch (afterDirectCreate db a b) a b)
      = some (freshDirectConv db) := by
    rw [hconvs, List.find?_append, hbase a b hnone]
    simp [hmatchnew a b (Or.inl rfl) (Or.inr rfl) hab]
  have hfindBA : (afterDirectCreate db a b).conversations.find?
        (directMatch (afterDirectCreate db a b) b a)
      = some (freshDirectConv db) := by
    rw [hconvs, List.find?_append, hbase b a hnoneBA]
    simp [hmatchnew b a (Or.inr rfl) (Or.inl rfl) (fun h => hab h.symm)]
  refine ⟨hrun, ?_, ?_⟩
  · unfold createDirect
    rw [if_neg hb, if_neg hba, hfindAB]
    rfl
  · unfold createDirect
    rw [if_neg ha, if_neg (show ¬ (a = b) from hab), hfindBA]
    rfl


/-- C4 witness: users `u1` and `u2` of the concrete store — the second and
the swapped request both return the conversation the first request
created. -/
theorem C4_witness :
    createDirect db3 "u1" "u2"
      = (afterDirectCreate db3 "u1" "u2",
         .ok ("conv_" ++ toString db3.nextId)) ∧
    createDirect (afterDirectCreate db3 "u1" "u2") "u1" "u2"
      = (afterDirectCreate db3 "u1" "u2",
         .ok ("conv_" ++ toString db3.nextId)) ∧
    createDirect (afterDirectCreate db3 "u1" "u2") "u2" "u1"
      = (afterDirectCreate db3 "u1" "u2",
         .ok ("conv_" ++ toString db3.nextId)) :=
  C4_direct_dedup db3 "u1" "u2" (by decide) (by decide) (by decide)
    (by decide) (by decide) (by decide)


/-- Under the unique (conversation, user) key, the rows matching a found
key are exactly the found row. -/
theorem filter_key_unique (cid uid : String) :
    ∀ l : List ConversationMember,
      (l.map fun m => (m.conversationId, m.userId)).Nodup →
      ∀ tm, l.find? (fun m => m.conversationId = cid ∧ m.userId = uid)
          = some tm →
        l.filter (fun m => m.conversationId = cid ∧ m.userId = uid)
          = [tm] := by
  intro l
  induction l with
  | nil => intro _ tm h; simp at h
  | cons a t ih =>
    intro hnd tm hfind
    rw [List.map_cons, List.nodup_cons] at hnd
    by_cases ha : a.conversationId = cid ∧ a.userId = uid
    · rw [List.find?_cons_of_pos _ (by simp [ha.1, ha.2])] at hfind
      injection hfind with htm
      rw [List.filter_cons_of_pos (by simp [ha.1, ha.2])]
      have hrest : t.filter
          (fun m => m.conversationId = cid ∧ m.userId = uid) = [] := by
        apply List.filter_eq_nil_iff.mpr
        intro m hm hkm
        rw [decide_eq_true_eq] at hkm
        have hmem : (m.conversationId, m.userId)
            ∈ t.map (fun m => (m.conversationId, m.userId)) :=
          List.mem_map_of_mem _ hm
        rw [hkm.1, hkm.2, ← ha.1, ← ha.2] at hmem
        exact hnd.1 hmem
      rw [hrest, htm]
    · rw [List.find?_cons_of_neg _ (by simp [ha])] at hfind
      rw [List.filter_cons_of_neg (by simp [ha])]
      exact ih hnd.2 tm hfind

/-- Partition of the admin rows by the removal key. -/
theorem adminCount_split (cid uid : String) :
    ∀ l : List ConversationMember,
      (l.filter fun m =>
        m.conversationId = cid ∧ m.role = Role.ADMIN).length
      = ((l.filter fun m => m.conversationId = cid ∧ m.userId = uid).filter
          fun m => m.conversationId = cid ∧ m.role = Role.ADMIN).length
        + ((l.filter fun m =>
            ¬(m.conversationId = cid ∧ m.userId = uid)).filter
          fun m => m.conversationId = cid ∧ m.role = Role.ADMIN).length := by
  intro l
  induction l with
  | nil => rfl
  | cons a t ih =>
    by_cases hk : a.conversationId = cid ∧ a.userId = uid
    · by_cases hp : a.conversationId = cid ∧ a.role = Role.ADMIN
      · rw [List.filter_cons_of_pos (by simp [hp]),
          List.filter_cons_of_pos (by simp [hk]),
          List.filter_cons_of_pos (by simp [hp]),
          List.filter_cons_of_neg (by simp [hk])]
        simp only [List.length_cons]
        omega
      · rw [List.filter_cons_of_neg (by simp [hp]),
          List.filter_cons_of_pos (by simp [hk]),
          List.filter_cons_of_neg (by simp [hp]),
          List.filter_cons_of_neg (by simp [hk])]
        exact ih
    · by_cases hp : a.conversationId = cid ∧ a.role = Role.ADMIN
      · rw [List.filter_cons_of_pos (by simp [hp]),
          List.filter_cons_of_neg (by simp [hk]),
          List.filter_cons_of_pos (by simp [hk]),
          List.filter_cons_of_pos (by simp [hp])]
        simp only [List.length_cons]
        omega
      · rw [List.filter_cons_of_neg (by simp [hp]),
          List.filter_cons_of_neg (by simp [hk]),
          List.filter_cons_of_pos (by simp [hk]),
          List.filter_cons_of_neg (by simp [hp])]
        exact ih

/-- After the deletion, the (conversation, user) membership is gone. -/
theorem isMember_after_remove (db : DB) (cid uid : String) :
    isConversationMember
      { db with members := db.members.filter fun m =>
          ¬(m.conversationId = cid ∧ m.userId = uid) } cid uid
      = false := by
  unfold isConversationMember
  rw [List.any_eq_false]
  intro m hm
  rw [List.mem_filter] at hm
  simp only [decide_eq_true_eq] at hm ⊢
  exact hm.2


/-- C3: for a GROUP conversation (an admin requester passing the handler's
gates), removing an ADMIN-role member fails with the store unchanged when
it is the sole ADMIN, succeeds when at least two ADMINs exist, and removing
a MEMBER-role member always succeeds; every removal preserves the
at-least-one-ADMIN invariant. -/
theorem C3_last_admin_invariant (db : DB)
    (conversationId requesterId userId : String)
    (hwf : MembersWellformed db) :
    (∀ tm, db.members.find?
        (fun m => m.conversationId = conversationId ∧ m.userId = userId)
        = some tm →
      isConversationMember db conversationId requesterId = true →
      isGroupAdmin db conversationId requesterId = true →
      tm.role = Role.ADMIN → adminCount db conversationId ≤ 1 →
      removeMember db conversationId requesterId userId
        = (db, .error "Cannot remove last admin")) ∧
    (∀ tm, db.members.find?
        (fun m => m.conversationId = conversationId ∧ m.userId = userId)
        = some tm →
      isConversationMember db conversationId requesterId = true →
      isGroupAdmin db conversationId requesterId = true →
      tm.role = Role.ADMIN → 2 ≤ adminCount db conversationId →
      (removeMember db conversationId requesterId userId).2 = .ok () ∧
      isConversationMember
        (removeMember db conversationId requesterId userId).1
        conversationId userId = false ∧
      1 ≤ adminCount (removeMember db conversationId requesterId userId).1
        conversationId) ∧
    (∀ tm, db.members.find?
        (fun m => m.conversationId = conversationId ∧ m.userId = userId)
        = some tm →
      isConversationMember db conversationId requesterId = true →
      isGroupAdmin db conversationId requesterId = true →
      tm.role = Role.MEMBER →
      (removeMember db conversationId requesterId userId).2 = .ok () ∧
      isConversationMember
        (removeMember db conversationId requesterId userId).1
        conversationId userId = false) ∧
    (1 ≤ adminCount db conversationId →
      1 ≤ adminCount (removeMember db conversationId requesterId userId).1
        conversationId) := by
  have hsplit := adminCount_split conversationId userId db.members
  refine ⟨?_, ?_, ?_, ?_⟩
  · intro tm hfind hm hadm hrole hcount
    unfold removeMember
    rw [if_pos hm, if_pos hadm, hfind]
    dsimp only
    rw [if_pos (show tm.role = Role.ADMIN
      ∧ adminCount db conversationId ≤ 1 from ⟨hrole, hcount⟩)]
  · intro tm hfind hm hadm hrole hcount
    have htmkey : tm.conversationId = conversationId ∧ tm.userId = userId := by
      have := List.find?_some hfind
      simpa using this
    have hrem : removeMember db conversationId requesterId userId
        = ({ db with members := db.members.filter fun m =>
            ¬(m.conversationId = conversationId ∧ m.userId = userId) },
           .ok ()) := by
      unfold removeMember
      rw [if_pos hm, if_pos hadm, hfind]
      dsimp only
      rw [if_neg (show ¬(tm.role = Role.ADMIN
        ∧ adminCount db conversationId ≤ 1) from
        fun h => absurd h.2 (by omega))]
    rw [hrem]
    refine ⟨rfl, isMember_after_remove db conversationId userId, ?_⟩
    have hkey := filter_key_unique conversationId userId db.members hwf tm hfind
    have h1 : ((db.members.filter
        (fun m => m.conversationId = conversationId ∧ m.userId = userId)).filter
        (fun m => m.conversationId = conversationId ∧ m.role = Role.ADMIN)).length
        = 1 := by
      rw [hkey, List.filter_cons_of_pos (by simp [htmkey.1, hrole])]
      rfl
    unfold adminCount at hcount ⊢
    dsimp only
    omega
  · intro tm hfind hm hadm hrole
    have hrem : removeMember db conversationId requesterId userId
        = ({ db with members := db.members.filter fun m =>
            ¬(m.conversationId = conversationId ∧ m.userId = userId) },
           .ok ()) := by
      unfold removeMember
      rw [if_pos hm, if_pos hadm, hfind]
      dsimp only
      rw [if_neg (show ¬(tm.role = Role.ADMIN
        ∧ adminCount db conversationId ≤ 1) from
        fun h => by rw [hrole] at h; exact absurd h.1 (by decide))]
    rw [hrem]
    exact ⟨rfl, isMember_after_remove db conversationId userId⟩
  · intro hone
    unfold removeMember
    split
    · split
      · split
        · exact hone
        next tm hfind =>
          split
          · exact hone
          next hcond =>
            dsimp only
            have htmkey : tm.conversationId = conversationId
                ∧ tm.userId = userId := by
              have := List.find?_some hfind
              simpa using this
            have hkey := filter_key_unique conversationId userId db.members
              hwf tm hfind
            by_cases hrole : tm.role = Role.ADMIN
            · have hge2 : 2 ≤ adminCount db conversationId := by
                have hnb : ¬ (adminCount db conversationId ≤ 1) :=
                  fun hb => hcond ⟨hrole, hb⟩
                omega
              have h1 : ((db.members.filter
                  (fun m => m.conversationId = conversationId
                    ∧ m.userId = userId)).filter
                  (fun m => m.conversationId = conversationId
                    ∧ m.role = Role.ADMIN)).length = 1 := by
                rw [hkey, List.filter_cons_of_pos (by simp [htmkey.1, hrole])]
                rfl
              unfold adminCount at hge2 ⊢
              dsimp only
              omega
            · have h0 : ((db.members.filter
                  (fun m => m.conversationId = conversationId
                    ∧ m.userId = userId)).filter
                  (fun m => m.conversationId = conversationId
                    ∧ m.role = Role.ADMIN)).length = 0 := by
                rw [hkey, List.filter_cons_of_neg (by simp [hrole])]
                rfl
              unfold adminCount at hone ⊢
              dsimp only
              omega
      · exact hone
    · exact hone


/-- A group `c1` with two ADMINs (`u1`, `u2`) and one MEMBER (`u3`). -/
def dbG : DB where
  users := [⟨"u1", "hi"⟩, ⟨"u2", "ta"⟩, ⟨"u3", "te"⟩]
  conversations := [⟨"c1", ConvType.GROUP⟩]
  members := [⟨"c1", "u1", Role.ADMIN⟩, ⟨"c1", "u2", Role.ADMIN⟩,
              ⟨"c1", "u3", Role.MEMBER⟩]
  messages := []
  nextId := 0

/-- C3 witness: sole-admin removal refused on `db3`; on `dbG` an ADMIN
removal with two admins and a MEMBER removal both succeed; the refused
removal keeps one admin. -/
theorem C3_witness :
    removeMember db3 "c1" "u1" "u1"
      = (db3, .error "Cannot remove last admin") ∧
    ((removeMember dbG "c1" "u1" "u2").2 = .ok () ∧
      isConversationMember (removeMember dbG "c1" "u1" "u2").1 "c1" "u2"
        = false ∧
      1 ≤ adminCount (removeMember dbG "c1" "u1" "u2").1 "c1") ∧
    ((removeMember dbG "c1" "u1" "u3").2 = .ok () ∧
      isConversationMember (removeMember dbG "c1" "u1" "u3").1 "c1" "u3"
        = false) ∧
    1 ≤ adminCount (removeMember db3 "c1" "u1" "u1").1 "c1" :=
  ⟨(C3_last_admin_invariant db3 "c1" "u1" "u1" (by unfold MembersWellformed; decide)).1
      ⟨"c1", "u1", Role.ADMIN⟩ (by decide) (by decide) (by decide)
      (by decide) (by decide),
   (C3_last_admin_invariant dbG "c1" "u1" "u2" (by unfold MembersWellformed; decide)).2.1
      ⟨"c1", "u2", Role.ADMIN⟩ (by decide) (by decide) (by decide)
      (by decide) (by decide),
   (C3_last_admin_invariant dbG "c1" "u1" "u3" (by unfold MembersWellformed; decide)).2.2.1
      ⟨"c1", "u3", Role.MEMBER⟩ (by decide) (by decide) (by decide)
      (by decide),
   (C3_last_admin_invariant db3 "c1" "u1" "u1" (by unfold MembersWellformed; decide)).2.2.2
      (by decide)⟩


/-- C7 counterexample: in a concrete run the pipeline's first logged stage
is member resolution, before the original-audio upload — with a failing
upload the members were already resolved and exactly one storage call was
made; with an unknown sender the pipeline stops after member resolution
with zero provider calls. The claimed order (members resolved after upload
and transcription) is false. -/
theorem C7_counterexample :
    (processAndEmitVoiceMessage envUploadFails db3 "c1" "u1" "AUD").log
      = ["members_loaded", "cloudinary_original_start"] ∧
    (processAndEmitVoiceMessage envUploadFails db3 "c1" "u1" "AUD").result
      = .error "cloudinary-original: cloud down" ∧
    (processAndEmitVoiceMessage envUploadFails db3 "c1" "u1" "AUD").calls
      = [.cloudinary "AUD" "original_c1"] ∧
    (processAndEmitVoiceMessage envOk db3 "c1" "zz" "AUD").log
      = ["members_loaded"] ∧
    (processAndEmitVoiceMessage envOk db3 "c1" "zz" "AUD").calls = [] ∧
    (processAndEmitVoiceMessage envOk db3 "c1" "zz" "AUD").result
      = .error "Sender not found" :=
  ⟨rfl, rfl, rfl, rfl, rfl, rfl⟩

/-- C7 (amended): the pipeline resolves members (and the sender among
them) first, then uploads the original audio — a failure there aborts with
the `cloudinary-original` tag — then transcribes, and only then runs the
per-member loop; in particular member resolution happens before the
original-audio upload and transcription, not after them. -/
theorem C7_stage_order (env : Env) (db : DB)
    (conversationId senderId audioBase64 : String) (s : User)
    (hfind : (getConversationMembers db conversationId).find?
      (fun m => m.id = senderId) = some s) :
    (processAndEmitVoiceMessage env db conversationId senderId
        audioBase64).log.take 2
      = ["members_loaded", "cloudinary_original_start"] ∧
    (∀ e, (uploadAudioBase64 env (some audioBase64)
        ("original_" ++ conversationId)).1 = .error e →
      (processAndEmitVoiceMessage env db conversationId senderId
          audioBase64).result = .error ("cloudinary-original: " ++ e) ∧
      (processAndEmitVoiceMessage env db conversationId senderId
          audioBase64).log
        = ["members_loaded", "cloudinary_original_start"]) ∧
    (∀ url stt, (uploadAudioBase64 env (some audioBase64)
        ("original_" ++ conversationId)).1 = .ok url →
      (speechToText env audioBase64
        (if s.preferredLanguage = "" then "auto"
         else s.preferredLanguage)).1 = .ok stt →
      (processAndEmitVoiceMessage env db conversationId senderId
          audioBase64).log.take 6
        = ["members_loaded", "cloudinary_original_start",
           "cloudinary_original_done", "stt_start", "stt_done",
           "source_ready"]) := by
  refine ⟨?_, ?_, ?_⟩
  · unfold processAndEmitVoiceMessage
    rw [hfind]
    dsimp only
    cases hup : (uploadAudioBase64 env (some audioBase64)
        ("original_" ++ conversationId)).1 with
    | error e => rfl
    | ok url =>
      dsimp only
      cases hst : (speechToText env audioBase64
          (if s.preferredLanguage = "" then "auto"
           else s.preferredLanguage)).1 with
      | error e => rfl
      | ok stt => rfl
  · intro e hup
    unfold processAndEmitVoiceMessage
    rw [hfind]
    dsimp only
    rw [hup]
    exact ⟨rfl, rfl⟩
  · intro url stt hup hst
    unfold processAndEmitVoiceMessage
    rw [hfind]
    dsimp only
    rw [hup]
    dsimp only
    rw [hst]
    rfl

/-- C7 witness: the concrete run `envOk`/`db3` exhibits the stage order;
`envUploadFails` exhibits the tagged original-upload abort. -/
theorem C7_witness :
    (processAndEmitVoiceMessage envOk db3 "c1" "u1" "AUD").log.take 2
      = ["members_loaded", "cloudinary_original_start"] ∧
    ((processAndEmitVoiceMessage envUploadFails db3 "c1" "u1" "AUD").result
      = .error "cloudinary-original: cloud down" ∧
     (processAndEmitVoiceMessage envUploadFails db3 "c1" "u1" "AUD").log
      = ["members_loaded", "cloudinary_original_start"]) ∧
    (processAndEmitVoiceMessage envOk db3 "c1" "u1" "AUD").log.take 6
      = ["members_loaded", "cloudinary_original_start",
         "cloudinary_original_done", "stt_start", "stt_done",
         "source_ready"] :=
  ⟨(C7_stage_order envOk db3 "c1" "u1" "AUD" ⟨"u1", "hi"⟩ (by decide)).1,
   (C7_stage_order envUploadFails db3 "c1" "u1" "AUD" ⟨"u1", "hi"⟩
      (by decide)).2.1 "cloud down" rfl,
   (C7_stage_order envOk db3 "c1" "u1" "AUD" ⟨"u1", "hi"⟩ (by decide)).2.2
      (some "url_original_c1") ⟨"hello", "hi"⟩ rfl rfl⟩


/-- A generated trace id is never empty. -/
theorem makeTraceId_ne_empty (now rand : String) :
    makeTraceId now rand ≠ "" := by
  unfold makeTraceId
  intro h
  have h2 := congrArg String.data h
  rw [String.data_append, String.data_append, String.data_append] at h2
  have hv : ("v_" : String).data = ['v', '_'] := rfl
  rw [hv] at h2
  simp at h2

/-- C1 counterexample: three members, the synthesis fails for the second
member (`ta`) after the first member's branch completed — the run reports a
`sarvam-tts` error but one Message row has been persisted (and one event
emitted), not zero. -/
theorem C1_counterexample :
    (getConversationMembers db3 "c1").length = 3 ∧
    (voiceHttpRoute envTtsTaFails db3 "c1" "u1" "AUDIO").result
      = .error "sarvam-tts: synth down" ∧
    (voiceHttpRoute envTtsTaFails db3 "c1" "u1" "AUDIO").emits.length = 1 ∧
    (voiceHttpRoute envTtsTaFails db3 "c1" "u1" "AUDIO").db.messages.length
      = 1 ∧
    ¬ (voiceHttpRoute envTtsTaFails db3 "c1" "u1" "AUDIO").db.messages.length
      = 0 :=
  ⟨rfl, rfl, rfl, rfl, by decide⟩

/-- C1 (amended): when synthesis fails at the second of three members after
the first member's branch completed, the caller receives a `sarvam-tts`
tagged error and a non-empty trace id, but exactly one Message row — the
first member's — remains persisted (one event emitted); rows written before
the failure are not rolled back. -/
theorem C1_tts_failure_partial_persist (env : Env) (db : DB)
    (conversationId senderId audioBase64 L : String)
    (m1 m2 m3 s : User) (t1 t2 e : String) (url u1 a1 : Option String)
    (stt : SttResult)
    (haudio : isBlank audioBase64 = false)
    (hmem : isConversationMember db conversationId senderId = true)
    (hms : getConversationMembers db conversationId = [m1, m2, m3])
    (hfind : ([m1, m2, m3].find? fun m => m.id = senderId) = some s)
    (hup : (uploadAudioBase64 env (some audioBase64)
      ("original_" ++ conversationId)).1 = .ok url)
    (hstt : (speechToText env audioBase64
      (if s.preferredLanguage = "" then "auto"
       else s.preferredLanguage)).1 = .ok stt)
    (hsrc : (if stt.language = "" then env.detect stt.text s.preferredLanguage
      else stt.language) = L)
    (htr1 : (translateText env stt.text m1.preferredLanguage L).1 = .ok t1)
    (htts1 : (textToSpeechBase64 env t1 m1.preferredLanguage).1 = .ok a1)
    (hupl1 : (uploadAudioBase64 env a1
      ("translated_" ++ conversationId ++ "_" ++ m1.id)).1 = .ok u1)
    (hdb : ∀ m, env.dbCreate m = none)
    (htr2 : (translateText env stt.text m2.preferredLanguage L).1 = .ok t2)
    (htts2 : (textToSpeechBase64 env t2 m2.preferredLanguage).1 = .error e) :
    (voiceHttpRoute env db conversationId senderId audioBase64).result
      = .error ("sarvam-tts: " ++ e) ∧
    (voiceHttpRoute env db conversationId senderId
        audioBase64).db.messages.length = db.messages.length + 1 ∧
    (voiceHttpRoute env db conversationId senderId audioBase64).emits.length
      = 1 ∧
    (voiceHttpRoute env db conversationId senderId audioBase64).traceId
      ≠ "" := by
  have hloop :
      (voiceLoop env conversationId senderId stt.text L url
        [m1, m2, m3] db).2.2.2.2 = .error ("sarvam-tts: " ++ e) ∧
      (voiceLoop env conversationId senderId stt.text L url
        [m1, m2, m3] db).1.messages.length = db.messages.length + 1 ∧
      (voiceLoop env conversationId senderId stt.text L url
        [m1, m2, m3] db).2.1.length = 1 := by
    rw [voiceLoop]
    simp only [htr1]
    simp only [htts1]
    simp only [hupl1]
    simp only [hdb]
    rw [voiceLoop]
    simp only [htr2]
    simp only [htts2]
    refine ⟨?_, ?_, ?_⟩ <;> simp
  unfold voiceHttpRoute
  rw [haudio]
  simp only [Bool.false_eq_true, if_false]
  rw [if_pos hmem]
  unfold processAndEmitVoiceMessage
  rw [hms, hfind]
  dsimp only
  rw [hup]
  dsimp only
  rw [hstt]
  dsimp only
  rw [hsrc]
  exact ⟨hloop.1, by
      have h2 := hloop.2.1
      exact h2,
    hloop.2.2, makeTraceId_ne_empty env.now env.rand⟩


/-- C1 witness: the concrete three-member run with synthesis failing for
the second member — tagged error, non-empty trace id, one persisted row. -/
theorem C1_witness :
    (voiceHttpRoute envTtsTaFails db3 "c1" "u1" "AUDIO").result
      = .error "sarvam-tts: synth down" ∧
    (voiceHttpRoute envTtsTaFails db3 "c1" "u1" "AUDIO").db.messages.length
      = db3.messages.length + 1 ∧
    (voiceHttpRoute envTtsTaFails db3 "c1" "u1" "AUDIO").emits.length = 1 ∧
    (voiceHttpRoute envTtsTaFails db3 "c1" "u1" "AUDIO").traceId ≠ "" :=
  C1_tts_failure_partial_persist envTtsTaFails db3 "c1" "u1" "AUDIO" "hi"
    ⟨"u1", "hi"⟩ ⟨"u2", "ta"⟩ ⟨"u3", "te"⟩ ⟨"u1", "hi"⟩
    "hello" "(ta)hello" "synth down"
    (some "url_original_c1") (some "url_translated_c1_u1") (some "AUDIO64")
    ⟨"hello", "hi"⟩
    (by decide) (by decide) (by decide) (by decide) rfl rfl rfl rfl rfl rfl
    (fun m => rfl) rfl rfl

end OneVoice
